import Mathlib

/-!
# Verification of the MRP Transport & Dispatch subsystem

A shallow embedding, in Lean 4, of the configuration / transport / dispatch
layer of the `mrp` package (`src/mrp/config.py`, `api.py`, `orchestrator.py`,
`stager.py`, `runner_context.py`, `runtime/base.py`, `runtime/inline.py`,
`runtime/subprocess.py`), together with theorems settling the testable
properties stated in the project specification.

Python values flowing through this layer are JSON-shaped: the embedding uses
`JValue` below.  Numbers are modelled as integers (the claims under
verification exercise only integer and string leaves).  Python dictionaries
preserve insertion order and have unique keys; they are modelled as
association lists in insertion order.  Raised Python exceptions are modelled
by `Except PyErr`.
-/

namespace MRP

/-- JSON-shaped Python value.  Numbers are modelled as integers; Python
dicts become ordered association lists (`obj`). -/
inductive JValue where
  | str (s : String)
  | int (n : Int)
  | bool (b : Bool)
  | null
  | arr (elems : List JValue)
  | obj (fields : List (String × JValue))

/-- A Python dict of JSON values, in insertion order. -/
abbrev JObj := List (String × JValue)

/-- `d.get(k)` / `d[k]`: value at the first occurrence of key `k`. -/
def lookupJ (k : String) : JObj → Option JValue
  | [] => none
  | (k', v) :: rest => if k' = k then some v else lookupJ k rest

/-- `k in d`. -/
def hasKey (k : String) (o : JObj) : Bool := (lookupJ k o).isSome

/-- `d.pop(k, None)` / `del d[k]`: remove the entry for `k` (association
lists may in principle repeat a key; every occurrence is removed, which
coincides with Python on the unique-key dicts the code manipulates). -/
def eraseKey (k : String) (o : JObj) : JObj := o.filter (fun p => p.1 ≠ k)

/-- `d[k] = v`: replace the value at the first occurrence of `k` in place
(keeping its position) when present, otherwise append the new entry at the
end. -/
def setKey (o : JObj) (k : String) (v : JValue) : JObj :=
  match o with
  | [] => [(k, v)]
  | (k', v') :: rest => if k' = k then (k', v) :: rest else (k', v') :: setKey rest k v

/-- Keys of a dict, in insertion order. -/
def keysOf (o : JObj) : List String := o.map Prod.fst

/-- Python truthiness of a JSON-shaped value. -/
def truthy : JValue → Bool
  | .null => false
  | .bool b => b
  | .int n => n ≠ 0
  | .str s => s ≠ ""
  | .arr l => !l.isEmpty
  | .obj o => !o.isEmpty

/-- `bool(d.get(k))` for an optional lookup. -/
def truthyOpt : Option JValue → Bool
  | none => false
  | some v => truthy v

/-- Raised Python exceptions relevant to this layer.  `AttributeError` and
`TypeError` (an operation applied to a value of the wrong shape) are merged
into `typeError`. -/
inductive PyErr where
  | typeError
  | keyError (key : String)
  | fileNotFoundError (msg : String)
  | notImplementedError (msg : String)
  | valueError (msg : String)
  | timeoutExpired
deriving Repr, DecidableEq

/-! ## `json.dumps`

`build_run_json` serializes with `sort_keys=True, separators=(",", ":")`;
`SubprocessRuntime.run` serializes with the defaults
(`separators=(", ", ": ")`, unsorted).  Both keep `ensure_ascii=True`, so
every non-ASCII character is `\uXXXX`-escaped and the output is pure ASCII.
-/

/-- Decimal digits of a natural number, most significant first. -/
def natChars (n : Nat) : List Char :=
  if h : n < 10 then [Char.ofNat (48 + n)]
  else natChars (n / 10) ++ [Char.ofNat (48 + n % 10)]
decreasing_by
  exact Nat.div_lt_self (by omega) (by omega)

/-- Python `str(int)`. -/
def intChars (n : Int) : List Char :=
  if n < 0 then '-' :: natChars n.natAbs else natChars n.toNat

/-- Lowercase hex digit. -/
def hexDigit (n : Nat) : Char := Char.ofNat (if n < 10 then 48 + n else 87 + n)

/-- `\uXXXX` escape of one 16-bit unit. -/
def uEscape4 (n : Nat) : List Char :=
  ['\\', 'u', hexDigit (n / 4096 % 16), hexDigit (n / 256 % 16),
   hexDigit (n / 16 % 16), hexDigit (n % 16)]

/-- `\uXXXX` escape of a code point, as a surrogate pair above the BMP. -/
def uEscape (n : Nat) : List Char :=
  if n < 65536 then uEscape4 n
  else
    uEscape4 (55296 + (n - 65536) / 1024) ++ uEscape4 (56320 + (n - 65536) % 1024)

/-- One character of a JSON string under `ensure_ascii=True`: short escapes
for the two-character sequences, `\uXXXX` for everything outside the
printable ASCII range `0x20`–`0x7e`, the character itself otherwise. -/
def escapeChar (c : Char) : List Char :=
  if c = '"' then ['\\', '"']
  else if c = '\\' then ['\\', '\\']
  else if c = '\n' then ['\\', 'n']
  else if c = '\t' then ['\\', 't']
  else if c = '\r' then ['\\', 'r']
  else if c.toNat = 8 then ['\\', 'b']
  else if c.toNat = 12 then ['\\', 'f']
  else if c.toNat < 32 || c.toNat > 126 then uEscape c.toNat
  else [c]

/-- A JSON string literal: quotes around the escaped characters. -/
def renderStr (s : String) : List Char :=
  '"' :: (s.data.map escapeChar).flatten ++ ['"']

/-- Code-point lexicographic `<` on strings — Python's `str` comparison,
which `sorted` uses on the (unique) keys of a dict. -/
def strLtB : List Char → List Char → Bool
  | [], [] => false
  | [], _ :: _ => true
  | _ :: _, [] => false
  | c :: cs, d :: ds =>
    if c.toNat < d.toNat then true
    else if d.toNat < c.toNat then false
    else strLtB cs ds

/-- Insert into a key-sorted list, stably. -/
def insertEntry {α : Type} (e : String × α) : List (String × α) → List (String × α)
  | [] => [e]
  | f :: rest =>
    if strLtB f.1.data e.1.data then f :: insertEntry e rest else e :: f :: rest

/-- Stable insertion sort by key — the order `sorted(d.items())` yields on a
dict (keys are unique, so the tuple comparison never reaches the values). -/
def sortEntries {α : Type} : List (String × α) → List (String × α)
  | [] => []
  | e :: rest => insertEntry e (sortEntries rest)

mutual

/-- `json.dumps` body: `itemSep`/`kvSep` are the two `separators`,
`sortKeys` is `sort_keys`. -/
def dumpVal (itemSep kvSep : List Char) (sortKeys : Bool) : JValue → List Char
  | .null => "null".data
  | .bool b => (if b then "true" else "false").data
  | .int n => intChars n
  | .str s => renderStr s
  | .arr l => '[' :: (List.intercalate itemSep (dumpArr itemSep kvSep sortKeys l)) ++ [']']
  | .obj o =>
    let entries := dumpEntries itemSep kvSep sortKeys o
    let ordered := if sortKeys then sortEntries entries else entries
    Char.ofNat 123 ::
      (List.intercalate itemSep
        (ordered.map (fun e => renderStr e.1 ++ kvSep ++ e.2))) ++ [Char.ofNat 125]

/-- Rendered elements of a JSON array. -/
def dumpArr (itemSep kvSep : List Char) (sortKeys : Bool) : List JValue → List (List Char)
  | [] => []
  | v :: rest => dumpVal itemSep kvSep sortKeys v :: dumpArr itemSep kvSep sortKeys rest

/-- Rendered values of a JSON object, each still paired with its key. -/
def dumpEntries (itemSep kvSep : List Char) (sortKeys : Bool) :
    List (String × JValue) → List (String × List Char)
  | [] => []
  | (k, v) :: rest =>
    (k, dumpVal itemSep kvSep sortKeys v) :: dumpEntries itemSep kvSep sortKeys rest

end

/-- `json.dumps(v, sort_keys=True, separators=(",", ":"))` — the canonical
serialization `build_run_json` fingerprints. -/
def dumpsCanonical (v : JValue) : String :=
  String.mk (dumpVal [','] [':'] true v)

/-- `json.dumps(v)` with default separators — what `SubprocessRuntime.run`
pipes to the child process. -/
def dumpsDefault (v : JValue) : String :=
  String.mk (dumpVal [',', ' '] [':', ' '] false v)

/-- `str.encode()` of a `json.dumps` result.  `ensure_ascii=True` keeps the
output pure ASCII, where UTF-8 bytes coincide with code points. -/
def asciiBytes (s : String) : List Nat := s.data.map Char.toNat

/-! ## SHA-256

`build_run_json` fingerprints with `hashlib.sha256(...).hexdigest()[:16]`.
The algorithm (FIPS 180-4) is embedded over `Nat`, with 32-bit words kept
below `2^32` by explicit reduction. -/

/-- `2^32`. -/
def M32 : Nat := 4294967296

/-- Reduce to a 32-bit word. -/
def mod32 (x : Nat) : Nat := x % M32

/-- Right rotation of a 32-bit word, arithmetically. -/
def rotr (n x : Nat) : Nat := x / 2 ^ n + x % 2 ^ n * 2 ^ (32 - n)

/-- Logical right shift. -/
def shr (n x : Nat) : Nat := x / 2 ^ n

/-- σ0. -/
def smallSigma0 (x : Nat) : Nat := rotr 7 x ^^^ rotr 18 x ^^^ shr 3 x

/-- σ1. -/
def smallSigma1 (x : Nat) : Nat := rotr 17 x ^^^ rotr 19 x ^^^ shr 10 x

/-- Σ0. -/
def bigSigma0 (x : Nat) : Nat := rotr 2 x ^^^ rotr 13 x ^^^ rotr 22 x

/-- Σ1. -/
def bigSigma1 (x : Nat) : Nat := rotr 6 x ^^^ rotr 11 x ^^^ rotr 25 x

/-- Ch, in its multiplexer form: each bit of `e` chooses between the
corresponding bits of `f` and `g`. -/
def ch (e f g : Nat) : Nat := g ^^^ (e &&& (f ^^^ g))

/-- Maj, in its carry-save form: a bit is set where at least two of the
three inputs agree on 1. -/
def maj (a b c : Nat) : Nat := (a &&& (b ^^^ c)) ^^^ (b &&& c)

/-- The eight working variables. -/
structure Hash8 where
  a : Nat
  b : Nat
  c : Nat
  d : Nat
  e : Nat
  f : Nat
  g : Nat
  h : Nat

/-- Split the big-endian concatenation `n` into `w` 32-bit words. -/
def unpack32 (w n : Nat) : List Nat :=
  (List.range w).map (fun i => n / 2 ^ (32 * (w - 1 - i)) % 2 ^ 32)

/-- The 64 SHA-256 round constants, packed big-endian. -/
def K256 : List Nat :=
  unpack32 64 0x428a2f9871374491b5c0fbcfe9b5dba53956c25b59f111f1923f82a4ab1c5ed5d807aa9812835b01243185be550c7dc372be5d7480deb1fe9bdc06a7c19bf174e49b69c1efbe47860fc19dc6240ca1cc2de92c6f4a7484aa5cb0a9dc76f988da983e5152a831c66db00327c8bf597fc7c6e00bf3d5a7914706ca63511429296727b70a852e1b21384d2c6dfc53380d13650a7354766a0abb81c2c92e92722c85a2bfe8a1a81a664bc24b8b70c76c51a3d192e819d6990624f40e3585106aa07019a4c1161e376c082748774c34b0bcb5391c0cb34ed8aa4a5b9cca4f682e6ff3748f82ee78a5636f84c878148cc7020890befffaa4506cebbef9a3f7c67178f2

/-- The SHA-256 initial hash value, packed big-endian. -/
def H256 : Hash8 :=
  match unpack32 8 0x6a09e667bb67ae853c6ef372a54ff53a510e527f9b05688c1f83d9ab5be0cd19 with
  | [a, b, c, d, e, f, g, h] => ⟨a, b, c, d, e, f, g, h⟩
  | _ => ⟨0, 0, 0, 0, 0, 0, 0, 0⟩

/-- Extend the message schedule by `n` words; `recent` holds the words
produced so far, most recent first. -/
def extendSchedule : Nat → List Nat → List Nat
  | 0, recent => recent
  | n + 1, recent =>
    let w := mod32 (recent.getD 15 0 + smallSigma0 (recent.getD 14 0) +
                    recent.getD 6 0 + smallSigma1 (recent.getD 1 0))
    extendSchedule n (w :: recent)

/-- The 64-word message schedule of a 16-word block. -/
def schedule (block : List Nat) : List Nat :=
  (extendSchedule 48 block.reverse).reverse

/-- One compression round, consuming a `(K, W)` pair. -/
def sha256Round (st : Hash8) (kw : Nat × Nat) : Hash8 :=
  let t1 := mod32 (st.h + bigSigma1 st.e + ch st.e st.f st.g + kw.1 + kw.2)
  let t2 := mod32 (bigSigma0 st.a + maj st.a st.b st.c)
  ⟨mod32 (t1 + t2), st.a, st.b, st.c, mod32 (st.d + t1), st.e, st.f, st.g⟩

/-- Compress one 16-word block into the running hash. -/
def compressBlock (st : Hash8) (block : List Nat) : Hash8 :=
  let fin := (K256.zip (schedule block)).foldl sha256Round st
  ⟨mod32 (st.a + fin.a), mod32 (st.b + fin.b), mod32 (st.c + fin.c),
   mod32 (st.d + fin.d), mod32 (st.e + fin.e), mod32 (st.f + fin.f),
   mod32 (st.g + fin.g), mod32 (st.h + fin.h)⟩

/-- Merkle–Damgård padding: `0x80`, zeros to 56 mod 64, then the bit length
as eight big-endian bytes. -/
def sha256Pad (msg : List Nat) : List Nat :=
  let len := msg.length
  let zeros := (64 + 55 - len % 64) % 64
  let bitLen := 8 * len % 2 ^ 64
  msg ++ 128 :: List.replicate zeros 0 ++
    (List.range 8).map (fun i => bitLen / 2 ^ (8 * (7 - i)) % 256)

/-- Big-endian 4-byte groups to 32-bit words. -/
def bytesToWords : List Nat → List Nat
  | b0 :: b1 :: b2 :: b3 :: rest =>
    (b0 * 16777216 + b1 * 65536 + b2 * 256 + b3) :: bytesToWords rest
  | _ => []

/-- Split into 64-byte chunks. -/
def chunk64 : List Nat → List (List Nat)
  | [] => []
  | b :: rest => (b :: rest).take 64 :: chunk64 ((b :: rest).drop 64)
termination_by l => l.length
decreasing_by
  simp only [List.length_drop, List.length_cons]
  omega

/-- The SHA-256 state after absorbing a byte string. -/
def sha256State (msg : List Nat) : Hash8 :=
  ((chunk64 (sha256Pad msg)).map bytesToWords).foldl compressBlock H256

/-- The SHA-256 digest of a byte string, as a 256-bit natural number
(big-endian concatenation of the eight state words). -/
def sha256Nat (msg : List Nat) : Nat :=
  let st := sha256State msg
  [st.a, st.b, st.c, st.d, st.e, st.f, st.g, st.h].foldl
    (fun acc x => acc * M32 + x) 0

/-- The first `width` hex characters of a `width`-nibble big-endian
rendering of `n` — `hexdigest()` is `hexChars 64` of the digest. -/
def hexChars (width n : Nat) : List Char :=
  (List.range width).map (fun i => hexDigit (n / 16 ^ (width - 1 - i) % 16))

/-- `hashlib.sha256(bytes).hexdigest()`. -/
def sha256Hex (msg : List Nat) : String := String.mk (hexChars 64 (sha256Nat msg))

/-! ## `mrp/config.py` -/

/-- `dict(v)`: copy a mapping; anything else raises `TypeError`.  (The
values this code feeds it are JSON-shaped, so the list-of-pairs form of
`dict` never arises.) -/
def asObj : JValue → Except PyErr JObj
  | .obj o => .ok o
  | _ => .error .typeError

/-- `_select_profile(section, profile_name)` from `config.py`.

Falsy `profile` values (absent, `{}`, …) leave the section untouched; an
explicitly named profile wins when declared; otherwise `default`, otherwise
the first declared profile.  A truthy `profile` value that is not a mapping
makes the membership/copy operations raise on every path; it is modelled
as a `TypeError`. -/
def selectProfile (sect : JObj) (profileName : Option String) : Except PyErr JObj :=
  match lookupJ "profile" sect with
  | none => .ok sect
  | some p =>
    if truthy p then
      match p with
      | .obj ps =>
        let named : Option String :=
          match profileName with
          | some n => if n ≠ "" && hasKey n ps then some n else none
          | none => none
        match named with
        | some n => asObj ((lookupJ n ps).getD .null)
        | none =>
          if hasKey "default" ps then asObj ((lookupJ "default" ps).getD .null)
          else asObj ((lookupJ ((keysOf ps).headD "") ps).getD .null)
      | _ => .error .typeError
    else .ok sect

/-- `prof.pop("command", None); prof.pop("args", None)` on one profile;
non-mapping profiles raise. -/
def stripOneProfile : JValue → Except PyErr JValue
  | .obj v => .ok (.obj (eraseKey "args" (eraseKey "command" v)))
  | _ => .error .typeError

/-- Strip `command`/`args` from every profile of the map. -/
def stripProfiles : List (String × JValue) → Except PyErr (List (String × JValue))
  | [] => .ok []
  | (k, v) :: rest => do
    let v' ← stripOneProfile v
    let rest' ← stripProfiles rest
    pure ((k, v') :: rest')

/-- The runtime-stripping step of `build_run_json`: pop `command`/`args`
from every profile when the section is profiled, from the flat section
otherwise. -/
def stripSpawnKeys (runtime : JObj) : Except PyErr JObj :=
  match lookupJ "profile" runtime with
  | some p =>
    if truthy p then
      match p with
      | .obj ps => do
        let ps' ← stripProfiles ps
        pure (setKey runtime "profile" (.obj ps'))
      | _ => .error .typeError
    else .ok (eraseKey "args" (eraseKey "command" runtime))
  | none => .ok (eraseKey "args" (eraseKey "command" runtime))

/-- Transport protocol version attached under `mrp`. -/
def mrpVersion : String := "0.0.1"

/-- `hashlib.sha256(canonical.encode()).hexdigest()[:16]` over the
sorted-key, separator-normalized serialization of `r`. -/
def inputHashOf (r : JObj) : String :=
  String.mk ((hexChars 64 (sha256Nat (asciiBytes (dumpsCanonical (.obj r))))).take 16)

/-- `build_run_json` step: strip `command`/`args` from the runtime section
(flat or profiled); a missing runtime section yields a fresh dict whose
mutation is discarded. -/
def stripRuntimeStage (result : JObj) : Except PyErr JObj :=
  match lookupJ "runtime" result with
  | none => .ok result
  | some (.obj r) => (stripSpawnKeys r).map (fun r' => setKey result "runtime" (.obj r'))
  | some _ => .error .typeError

/-- `build_run_json` step: `result.setdefault("model", {})["files"] =
staged_files` when staged files exist. -/
def stagedFilesStage (result : JObj) (stagedFiles : List (String × String)) :
    Except PyErr JObj :=
  if stagedFiles.isEmpty then .ok result else
  let stagedObj : JValue := .obj (stagedFiles.map (fun kv => (kv.1, .str kv.2)))
  match lookupJ "model" result with
  | none => .ok (result ++ [("model", .obj [("files", stagedObj)])])
  | some (.obj m) => .ok (setKey result "model" (.obj (setKey m "files" stagedObj)))
  | some _ => .error .typeError

/-- `build_run_json` step: default `output` to `{"spec": "stdout"}` when
absent. -/
def defaultOutputStage (result : JObj) : JObj :=
  if hasKey "output" result then result
  else result ++ [("output", .obj [("spec", .str "stdout")])]

/-- `output = result.get("output", {})` viewed as a mapping; a non-mapping
output raises at the attribute accesses that follow. -/
def outputObjOf (result : JObj) : Except PyErr JObj :=
  match lookupJ "output" result with
  | some (.obj o) => .ok o
  | some _ => .error .typeError
  | none => .ok []

/-- `output_section.get("spec") == "filesystem"`. -/
def isFilesystemSpec (sel : JObj) : Bool :=
  match lookupJ "spec" sel with
  | some (.str s) => s = "filesystem"
  | _ => false

/-- The profile name targeted by the directory override: the given
`output_profile` when truthy — declared or not — else `default` when
declared, else the first profile key. -/
def injectTarget (outputProfile : Option String) (ps : JObj) : String :=
  match outputProfile with
  | some n =>
    if n ≠ "" then n
    else if hasKey "default" ps then "default" else (keysOf ps).headD ""
  | none => if hasKey "default" ps then "default" else (keysOf ps).headD ""

/-- The body of the directory-override step, once the output section and
its profile resolution are in hand. -/
def injectCore (result oObj sel : JObj) (outputDir outputProfile : Option String) :
    Except PyErr JObj :=
  match outputDir with
  | none => .ok result
  | some d =>
    if isFilesystemSpec sel && d ≠ "" then
      if truthyOpt (lookupJ "profile" oObj) then
        match lookupJ "profile" oObj with
        | some (.obj ps) =>
          match lookupJ (injectTarget outputProfile ps) ps with
          | none => .error (.keyError (injectTarget outputProfile ps))
          | some (.obj pv) =>
            .ok (setKey result "output" (.obj (setKey oObj "profile"
              (.obj (setKey ps (injectTarget outputProfile ps)
                (.obj (setKey pv "dir" (.str d))))))))
          | some _ => .error .typeError
        | _ => .error .typeError
      else
        .ok (setKey result "output" (.obj (setKey oObj "dir" (.str d))))
    else .ok result

/-- `build_run_json` step: when the resolved output section has filesystem
spec and a truthy `output_dir` was given, write it into the flat `dir`
field or into the targeted profile's `dir` field. -/
def injectOutputDirStage (result : JObj) (outputDir : Option String)
    (outputProfile : Option String) : Except PyErr JObj :=
  outputObjOf result >>= fun oObj =>
    selectProfile oObj outputProfile >>= fun sel =>
      injectCore result oObj sel outputDir outputProfile

/-- `build_run_json` step: compute `input_hash` over the result (the `mrp`
section is not yet attached) and attach `mrp` metadata. -/
def attachMrpStage (result : JObj) : JObj :=
  setKey result "mrp"
    (.obj [("version", .str mrpVersion), ("input_hash", .str (inputHashOf result))])

/-- `build_run_json(config, staged_files=…, output_dir=…, output_profile=…)`
from `config.py`.  `copy.deepcopy` is the identity in the pure embedding;
in-place mutation of the nested dicts becomes `setKey` at their position
in the copy. -/
def buildRunJson (config : JObj) (stagedFiles : List (String × String))
    (outputDir : Option String) (outputProfile : Option String) :
    Except PyErr JObj := do
  let r1 ← stripRuntimeStage config
  let r2 ← stagedFilesStage r1 stagedFiles
  let r3 := defaultOutputStage r2
  let r4 ← injectOutputDirStage r3 outputDir outputProfile
  pure (attachMrpStage r4)

/-! ## `pathlib` and `urllib.parse` fragments

`Path(s)` normalizes on construction: spurious slashes and single-dot
components collapse, a leading `//` (exactly two slashes) survives,
`..` survives.  `str(Path(s))` of the empty input is `"."`. -/

/-- Split a character list on `/` (like `str.split("/")`). -/
def splitSlash : List Char → List (List Char)
  | [] => [[]]
  | c :: rest =>
    let r := splitSlash rest
    if c = '/' then [] :: r
    else (c :: r.headD []) :: r.tail

/-- Non-root components of a POSIX path: split on `/`, drop empties and
single dots. -/
def pathParts (s : String) : List (List Char) :=
  (splitSlash s.data).filter (fun p => !p.isEmpty && p ≠ ['.'])

/-- The root of a POSIX path: `//` exactly for a double leading slash,
`/` for one or three-plus, nothing otherwise. -/
def pathRoot (s : String) : List Char :=
  match s.data with
  | '/' :: '/' :: '/' :: _ => ['/']
  | '/' :: '/' :: _ => ['/', '/']
  | '/' :: _ => ['/']
  | _ => []

/-- `str(PurePosixPath(s))`. -/
def pathStr (s : String) : String :=
  let root := pathRoot s
  let parts := pathParts s
  if root.isEmpty && parts.isEmpty then "."
  else String.mk (root ++ List.intercalate ['/'] parts)

/-- `Path(p).name`: the last component, empty for a bare root. -/
def baseName (p : String) : String := String.mk ((pathParts p).getLastD [])

/-- A character allowed inside a URL scheme. -/
def isSchemeChar (c : Char) : Bool :=
  c.isAlpha || c.isDigit || c = '+' || c = '-' || c = '.'

/-- `urlparse(uri).scheme` and the remainder: the prefix before the first
`:` is a scheme when nonempty, alphabetic-first, and scheme-charset; it is
lowercased.  Otherwise the scheme is empty and the URI untouched. -/
def splitScheme (uri : String) : String × String :=
  let cs := uri.data
  let i := cs.findIdx (fun c => c = ':')
  if i < cs.length && 0 < i then
    let schemeCs := cs.take i
    if schemeCs.all isSchemeChar && (schemeCs.headD 'a').isAlpha then
      (String.mk (schemeCs.map Char.toLower), String.mk (cs.drop (i + 1)))
    else ("", uri)
  else ("", uri)

/-- `urlparse(uri).path`: after the scheme, skip a `//netloc` up to the
next `/`, `?` or `#`, then cut query and fragment. -/
def uriPath (uri : String) : String :=
  let rest := (splitScheme uri).2
  let cs := rest.data
  let afterNetloc :=
    if cs.take 2 = ['/', '/'] then
      (cs.drop 2).dropWhile (fun c => c ≠ '/' && c ≠ '?' && c ≠ '#')
    else cs
  String.mk ((afterNetloc.takeWhile (fun c => c ≠ '#')).takeWhile (fun c => c ≠ '?'))

/-! ## `mrp/stager.py`

The filesystem is an oracle `fsExists` on (normalized) paths; the lazily
created staging root is the string `stageDir`; the HTTP download itself is
out of scope (the spec scopes HTTP to "fetch URL to path") and is modelled
as succeeding into its destination path. -/

/-- `_stage_one(name, uri)` from `stager.py`. -/
def stageOne (fsExists : String → Bool) (stageDir : String)
    (name uri : String) : Except PyErr String :=
  let scheme := (splitScheme uri).1
  if scheme = "" || scheme = "file" then
    let localPath := pathStr (if scheme = "file" then uriPath uri else uri)
    if fsExists localPath then .ok localPath
    else .error (.fileNotFoundError
      ("File not found for '" ++ name ++ "': " ++ localPath))
  else if scheme = "http" || scheme = "https" then
    .ok (pathStr (stageDir ++ "/" ++ name ++ "/" ++ baseName (uriPath uri)))
  else if scheme = "s3" then
    .error (.notImplementedError
      ("S3 staging not yet implemented for '" ++ name ++ "': " ++ uri ++
       ". Use a local path or HTTP URL for now."))
  else
    .error (.valueError
      ("Unsupported URI scheme '" ++ scheme ++ "' for '" ++ name ++ "': " ++ uri))

/-- `stage_files(files)`: stage every name in order; the first failure
propagates (earlier stagings are not rolled back). -/
def stageFiles (fsExists : String → Bool) (stageDir : String) :
    List (String × String) → Except PyErr (List (String × String))
  | [] => .ok []
  | (n, u) :: rest => do
    let p ← stageOne fsExists stageDir n u
    let rest' ← stageFiles fsExists stageDir rest
    pure ((n, p) :: rest')

/-! ## `mrp/api.py` / `mrp/orchestrator.py` deep merge -/

mutual

/-- One iteration of the `_deep_merge` loop: `base[key] = value`, merging
recursively when both sides hold dicts. -/
def mergeInto (base : JObj) (k : String) (v : JValue) : JObj :=
  match lookupJ k base, v with
  | some (.obj bsub), .obj usub => setKey base k (.obj (deepMerge bsub usub))
  | _, _ => setKey base k v
termination_by sizeOf v
decreasing_by
  simp_wf

/-- `_deep_merge(base, updates)` (identical in `api.py` and
`orchestrator.py`): keys where both sides hold dicts recurse, every other
key takes the override value; new keys append in update order.
`apply_dict_overrides` deep-copies `base` first, so the in-place update
becomes this pure function. -/
def deepMerge (base : JObj) : JObj → JObj
  | [] => base
  | (k, v) :: rest => deepMerge (mergeInto base k v) rest
termination_by updates => sizeOf updates
decreasing_by
  all_goals simp_wf
  all_goals omega

end

/-- `apply_dict_overrides(config, overrides)` from `api.py`. -/
def applyDictOverrides (config overrides : JObj) : JObj := deepMerge config overrides

/-! ## `mrp/runner_context.py` -/

/-- Parse the digits of a decimal integer. -/
def digitsVal : List Char → Option Nat
  | [] => none
  | cs =>
    if cs.all Char.isDigit then
      some (cs.foldl (fun acc c => acc * 10 + (c.toNat - 48)) 0)
    else none

/-- Python `int(str)`: optional surrounding whitespace, optional sign,
decimal digits. -/
def pyIntOfString (s : String) : Option Int :=
  let cs := (s.data.dropWhile (fun c => c = ' ' || c = '\t' || c = '\n' || c = '\r'))
    |>.reverse.dropWhile (fun c => c = ' ' || c = '\t' || c = '\n' || c = '\r') |>.reverse
  match cs with
  | '-' :: ds => (digitsVal ds).map (fun n => -(n : Int))
  | '+' :: ds => (digitsVal ds).map (fun n => (n : Int))
  | ds => (digitsVal ds).map (fun n => (n : Int))

/-- Python `int(v)` on a JSON-shaped value: integers pass through, booleans
are integers, numeric strings parse, everything else raises. -/
def pyInt : JValue → Except PyErr Int
  | .int n => .ok n
  | .bool b => .ok (if b then 1 else 0)
  | .str s =>
    match pyIntOfString s with
    | some n => .ok n
    | none => .error (.valueError ("invalid literal for int() with base 10: " ++ s))
  | _ => .error .typeError

/-- `self.input.pop(k, 0)` followed by `int(…)`. -/
def popIntDefault0 (o : JObj) (k : String) : Except PyErr (Int × JObj) :=
  match lookupJ k o with
  | none => .ok (0, o)
  | some v => (pyInt v).map (fun n => (n, eraseKey k o))

/-- The model-side `RunnerContext` state after `__init__`.  `files` values
are the constructed `Path`s, rendered as strings. -/
structure Ctx where
  input : JObj
  seed : Int
  replicate : Int
  files : List (String × String)
  output : JValue

/-- `Path(v)` for a files entry: strings normalize, anything else raises. -/
def pathOfJ : JValue → Except PyErr String
  | .str s => .ok (pathStr s)
  | _ => .error .typeError

/-- Convert a `model.files` mapping to `Path` values. -/
def filesToPaths : List (String × JValue) → Except PyErr (List (String × String))
  | [] => .ok []
  | (k, v) :: rest => do
    let p ← pathOfJ v
    let rest' ← filesToPaths rest
    pure ((k, p) :: rest')

/-- `RunnerContext.__init__(data)` from `runner_context.py`. -/
def ctxOfTransport (data : JObj) : Except PyErr Ctx := do
  let input0 ← match lookupJ "input" data with
    | none => pure []
    | some (.obj i) => pure i
    | some _ => .error .typeError
  let (seed, input1) ← popIntDefault0 input0 "seed"
  let (replicate, input2) ← popIntDefault0 input1 "replicate"
  let model ← match lookupJ "model" data with
    | none => pure []
    | some (.obj m) => pure m
    | some _ => .error .typeError
  let files ← match lookupJ "files" model with
    | none => pure []
    | some (.obj fs) => filesToPaths fs
    | some _ => .error .typeError
  let output := (lookupJ "output" data).getD (.obj [])
  pure ⟨input2, seed, replicate, files, output⟩

/-- `output.get("spec") == "filesystem"` as evaluated by
`RunnerContext.output_dir`. -/
def ctxSpecIsFS (o : JObj) : Bool :=
  match lookupJ "spec" o with
  | some (.str s) => s = "filesystem"
  | _ => false

/-- `d = x.get("dir"); if d: return Path(d); … return None` — the
directory a (flat or selected) output section names, in
`RunnerContext.output_dir`. -/
def ctxDirOf (so : JObj) : Except PyErr (Option String) :=
  match lookupJ "dir" so with
  | some d => if truthy d then (pathOfJ d).map some else pure none
  | none => pure none

/-- `RunnerContext.output_dir`: flat filesystem output yields its truthy
`dir`; otherwise a truthy profile map resolves `default`-if-truthy, else
the first profile value, and yields its `dir` when that profile is truthy
with filesystem spec; everything else yields no directory. -/
def ctxOutputDir (output : JValue) : Except PyErr (Option String) := do
  let o ← match output with
    | .obj o => pure o
    | _ => (.error .typeError : Except PyErr JObj)
  if ctxSpecIsFS o then ctxDirOf o
  else
    match lookupJ "profile" o with
    | some p =>
      if truthy p then
        match p with
        | .obj ps =>
          let selected : JValue :=
            match lookupJ "default" ps with
            | some dv => if truthy dv then dv else (ps.headD ("", .null)).2
            | none => (ps.headD ("", .null)).2
          if truthy selected then
            match selected with
            | .obj so => if ctxSpecIsFS so then ctxDirOf so else pure none
            | _ => .error .typeError
          else pure none
        | _ => .error .typeError
      else pure none
    | none => pure none

/-! ## `mrp/runtime/base.py` -/

/-- `RunResult`; the captured byte streams are modelled as the text they
decode from. -/
structure RunResult where
  exit_code : Int
  stdout : String
  stderr : String

/-- `RunResult.ok`. -/
def RunResult.ok (r : RunResult) : Bool := r.exit_code == 0

/-- `output.get("spec") == "filesystem"` as evaluated by
`Runtime._prepare_output`. -/
def hostSpecIsFS (o : JObj) : Bool :=
  match lookupJ "spec" o with
  | some (.str s) => s = "filesystem"
  | _ => false

/-- `out_dir = x.get("dir"); if out_dir: Path(out_dir).mkdir(...)` — the
directory `_prepare_output` pre-creates for a (flat or selected) output
section, if any. -/
def hostDirOf (so : JObj) : Except PyErr (Option String) :=
  match lookupJ "dir" so with
  | some d => if truthy d then (pathOfJ d).map some else pure none
  | none => pure none

/-- `Runtime._prepare_output(run_json, output_profile)`: the directory the
host pre-creates, if any.  A flat filesystem output yields its truthy
`dir`; otherwise a truthy profile map is resolved through
`_select_profile` and a filesystem selection yields its truthy `dir`. -/
def hostOutputDir (runJson : JObj) (outputProfile : Option String) :
    Except PyErr (Option String) := do
  let output ← match lookupJ "output" runJson with
    | none => pure []
    | some (.obj o) => pure o
    | some _ => (.error .typeError : Except PyErr JObj)
  if hostSpecIsFS output then hostDirOf output
  else if truthyOpt (lookupJ "profile" output) then do
    let sel ← selectProfile output outputProfile
    if hostSpecIsFS sel then hostDirOf sel else pure none
  else pure none

/-! ## `mrp/runtime/inline.py` -/

/-- Where a process-wide standard stream currently points: the real stream
or an in-memory capture buffer. -/
inductive StreamTarget where
  | real (which : Nat)
  | buffer (id : Nat)

/-- The process-wide `sys.stdout` / `sys.stderr` pair. -/
structure SysStreams where
  stdout : StreamTarget
  stderr : StreamTarget

/-- How one invocation of the wrapped callable ends. -/
inductive CallOutcome where
  | normal
  | exitWith (code : JValue)
  | raised (detail : String)

/-- What one invocation of the callable did: text written to the redirected
stdout and stderr, and how it ended (`raised` carries
`traceback.format_exc()`). -/
structure CallBehavior where
  out : String
  err : String
  outcome : CallOutcome

/-- `SystemExit.code` mapped to an exit code: `e.code if isinstance(e.code,
int) else 1` (Python `bool` is an `int`). -/
def exitCodeOfSysExit : JValue → Int
  | .int c => c
  | .bool c => if c then 1 else 0
  | _ => 1

/-- `InlineRuntime.run(run_json)`: pre-flight the output directory, swap
both process streams to fresh buffers, invoke the callable, map its
outcome to an exit code, append a raised error's formatted detail to the
captured stderr, and restore the streams in `finally`.  The callable is a
function of the transport and of the streams it observes; the returned
`SysStreams` is the process-wide state after `run` returns. -/
def inlineRun (fn : JObj → SysStreams → CallBehavior) (runJson : JObj)
    (sys0 : SysStreams) : Except PyErr (RunResult × SysStreams) := do
  let _ ← hostOutputDir runJson none
  let oldStdout := sys0.stdout
  let oldStderr := sys0.stderr
  let b := fn runJson ⟨.buffer 0, .buffer 1⟩
  let exitCode : Int := match b.outcome with
    | .normal => 0
    | .exitWith c => exitCodeOfSysExit c
    | .raised _ => 1
  let stderrFinal : String := match b.outcome with
    | .raised tb => b.err ++ tb
    | _ => b.err
  pure (⟨exitCode, b.out, stderrFinal⟩, ⟨oldStdout, oldStderr⟩)

/-! ## `mrp/runtime/subprocess.py` -/

/-- What the underlying `subprocess.run` invocation does with the
serialized transport on its stdin: run to completion with an exit status
and captured streams, or hit the configured timeout (which
`subprocess.run` signals by raising `TimeoutExpired`). -/
inductive SpawnOutcome where
  | completed (exitCode : Int) (stdout stderr : String)
  | timedOut

/-- `SubprocessRuntime.run(run_json)`: pre-flight the output directory,
serialize the transport, spawn.  A completed process becomes a
`RunResult`; a timeout raises `TimeoutExpired`, uncaught. -/
def subprocessRun (spawn : String → SpawnOutcome) (runJson : JObj) :
    Except PyErr RunResult := do
  let _ ← hostOutputDir runJson none
  let inputBytes := dumpsDefault (.obj runJson)
  match spawn inputBytes with
  | .completed c o e => pure ⟨c, o, e⟩
  | .timedOut => .error .timeoutExpired

/-! ## Dictionary lemmas -/

@[simp]
theorem lookupJ_nil (k : String) : lookupJ k ([] : JObj) = none := rfl

@[simp]
theorem lookupJ_cons (k k' : String) (v : JValue) (o : JObj) :
    lookupJ k ((k', v) :: o) = if k' = k then some v else lookupJ k o := rfl

theorem lookupJ_append (k : String) (o₁ o₂ : JObj) :
    lookupJ k (o₁ ++ o₂) =
      match lookupJ k o₁ with
      | some v => some v
      | none => lookupJ k o₂ := by
  induction o₁ with
  | nil => simp
  | cons p rest ih =>
    obtain ⟨k', v⟩ := p
    by_cases h : k' = k <;> simp [h, ih]

@[simp]
theorem setKey_nil (k : String) (v : JValue) : setKey [] k v = [(k, v)] := rfl

theorem setKey_cons (k k' : String) (v v' : JValue) (o : JObj) :
    setKey ((k', v') :: o) k v =
      if k' = k then (k', v) :: o else (k', v') :: setKey o k v := rfl

theorem lookupJ_setKey_self (o : JObj) (k : String) (v : JValue) :
    lookupJ k (setKey o k v) = some v := by
  induction o with
  | nil => simp
  | cons p rest ih =>
    obtain ⟨k', v'⟩ := p
    by_cases hk : k' = k <;> simp [setKey_cons, hk, ih]

theorem lookupJ_setKey_ne (o : JObj) (k k' : String) (v : JValue) (h : k' ≠ k) :
    lookupJ k (setKey o k' v) = lookupJ k o := by
  induction o with
  | nil => simp [h]
  | cons p rest ih =>
    obtain ⟨k₀, v₀⟩ := p
    by_cases h₀ : k₀ = k'
    · subst h₀
      simp [setKey_cons, h]
    · have h₂ : ¬ k = k' := fun hk => h hk.symm
      by_cases h₁ : k₀ = k <;> simp [setKey_cons, h₀, h₁, h₂, ih]

theorem setKey_of_lookup_none (o : JObj) (k : String) (v : JValue)
    (h : lookupJ k o = none) : setKey o k v = o ++ [(k, v)] := by
  induction o with
  | nil => rfl
  | cons p rest ih =>
    obtain ⟨k', v'⟩ := p
    by_cases hk : k' = k
    · simp [hk] at h
    · simp only [lookupJ_cons, hk, if_false] at h
      simp [setKey_cons, hk, ih h]

theorem eraseKey_cons (k k' : String) (v : JValue) (o : JObj) :
    eraseKey k ((k', v) :: o) =
      if k' = k then eraseKey k o else (k', v) :: eraseKey k o := by
  by_cases h : k' = k <;> simp [eraseKey, List.filter_cons, h]

theorem lookupJ_eraseKey_self (o : JObj) (k : String) :
    lookupJ k (eraseKey k o) = none := by
  induction o with
  | nil => rfl
  | cons p rest ih =>
    obtain ⟨k', v⟩ := p
    by_cases h : k' = k <;> simp [eraseKey_cons, h, ih]

theorem lookupJ_eraseKey_ne (o : JObj) (k k' : String) (h : k' ≠ k) :
    lookupJ k (eraseKey k' o) = lookupJ k o := by
  induction o with
  | nil => rfl
  | cons p rest ih =>
    obtain ⟨k₀, v⟩ := p
    by_cases h₀ : k₀ = k'
    · subst h₀
      have h' : ¬ k₀ = k := h
      simp [eraseKey_cons, h', ih]
    · have h₂ : ¬ k = k' := fun hk => h hk.symm
      by_cases h₁ : k₀ = k <;> simp [eraseKey_cons, h₀, h₁, h₂, ih]

theorem eraseKey_of_lookup_none (o : JObj) (k : String) (h : lookupJ k o = none) :
    eraseKey k o = o := by
  induction o with
  | nil => rfl
  | cons p rest ih =>
    obtain ⟨k', v⟩ := p
    by_cases hk : k' = k
    · simp [hk] at h
    · simp only [lookupJ_cons, hk, if_false] at h
      simp [eraseKey_cons, hk, ih h]

theorem eraseKey_append_self (o : JObj) (k : String) (v : JValue) :
    eraseKey k (o ++ [(k, v)]) = eraseKey k o := by
  simp [eraseKey, List.filter_append]

theorem hasKey_false_iff (o : JObj) (k : String) :
    hasKey k o = false ↔ lookupJ k o = none := by
  unfold hasKey
  cases lookupJ k o <;> simp

theorem lookupJ_mem (o : JObj) (k : String) (v : JValue)
    (h : lookupJ k o = some v) : (k, v) ∈ o := by
  induction o with
  | nil => simp at h
  | cons p rest ih =>
    obtain ⟨k', v'⟩ := p
    by_cases hk : k' = k
    · subst hk
      simp at h
      simp [h]
    · simp only [lookupJ_cons, hk, if_false] at h
      exact List.mem_cons_of_mem _ (ih h)

/-! ## `Except` plumbing -/

@[simp]
theorem exceptBind_ok {ε α β : Type} (a : α) (f : α → Except ε β) :
    (Except.ok a : Except ε α) >>= f = f a := rfl

@[simp]
theorem exceptBind_error {ε α β : Type} (e : ε) (f : α → Except ε β) :
    (Except.error e : Except ε α) >>= f = .error e := rfl

@[simp]
theorem exceptMap_ok {ε α β : Type} (a : α) (f : α → β) :
    (Except.ok a : Except ε α).map f = .ok (f a) := rfl

@[simp]
theorem exceptMap_error {ε α β : Type} (e : ε) (f : α → β) :
    (Except.error e : Except ε α).map f = .error e := rfl

@[simp]
theorem exceptPure_eq_ok {ε α : Type} (a : α) :
    (pure a : Except ε α) = .ok a := rfl

theorem bind_eq_ok {ε α β : Type} {m : Except ε α} {f : α → Except ε β} {b : β} :
    m >>= f = .ok b ↔ ∃ a, m = .ok a ∧ f a = .ok b := by
  cases m <;> simp [Except.bind]

theorem map_eq_ok {ε α β : Type} {m : Except ε α} {f : α → β} {b : β} :
    m.map f = .ok b ↔ ∃ a, m = .ok a ∧ f a = b := by
  cases m <;> simp [Except.map]

/-! ## Claims -/

/-- C10: for a config whose `output` section is profiled with a
fallback-selected `default` profile of filesystem spec, calling
`build_run_json` with an explicit output directory and an undeclared
output-profile name raises a `KeyError` for that name during directory
injection, instead of the silent fallback profile selection uses
elsewhere. -/
theorem c10_undeclared_output_profile_keyerror :
    buildRunJson
      [("output", .obj [("profile", .obj
        [("default", .obj [("spec", .str "filesystem"), ("dir", .str "d")])])])]
      [] (some "/o") (some "nope") = .error (.keyError "nope") := rfl

/-- C9: for every transport and every process runtime whose spawn primitive
hits its configured timeout, `SubprocessRuntime.run` propagates the
timeout as a fatal error and the caller obtains no `RunResult`; an
ordinary completed process — any exit status, zero or not — is returned as
a `RunResult`. -/
theorem c9_timeout_fatal (spawn : String → SpawnOutcome) (t : JObj)
    (prep : Option String) (hprep : hostOutputDir t none = .ok prep) :
    (spawn (dumpsDefault (.obj t)) = .timedOut →
       subprocessRun spawn t = .error .timeoutExpired) ∧
    (∀ c o e, spawn (dumpsDefault (.obj t)) = .completed c o e →
       subprocessRun spawn t = .ok ⟨c, o, e⟩) := by
  constructor
  · intro hto
    simp [subprocessRun, hprep, hto]
  · intro c o e hc
    simp [subprocessRun, hprep, hc]

theorem c9_timeout_fatal_witness :
    subprocessRun (fun _ => .timedOut) [] = .error .timeoutExpired ∧
    subprocessRun (fun _ => .completed 3 "" "boom") [] = .ok ⟨3, "", "boom"⟩ :=
  ⟨(c9_timeout_fatal (fun _ => .timedOut) [] none rfl).1 rfl,
   (c9_timeout_fatal (fun _ => .completed 3 "" "boom") [] none rfl).2 3 "" "boom" rfl⟩

/-- C6: once the callable has started, `InlineRuntime.run` always returns a
`RunResult` and restores the process-wide streams to their previous
targets: a callable raising a plain error yields exit code 1 (`ok` false)
with the error's formatted detail appended to the captured stderr, and a
callable signalling a deliberate exit with an integer code yields that
code (in particular 42 yields 42). -/
theorem c6_inline_never_raises (fn : JObj → SysStreams → CallBehavior)
    (t : JObj) (sys0 : SysStreams) (prep : Option String)
    (hprep : hostOutputDir t none = .ok prep) :
    ∃ r : RunResult, inlineRun fn t sys0 = .ok (r, sys0) ∧
      (∀ tb, (fn t ⟨.buffer 0, .buffer 1⟩).outcome = .raised tb →
         r.exit_code = 1 ∧ r.ok = false ∧
         r.stderr = (fn t ⟨.buffer 0, .buffer 1⟩).err ++ tb) ∧
      (∀ c, (fn t ⟨.buffer 0, .buffer 1⟩).outcome = .exitWith (.int c) →
         r.exit_code = c) := by
  obtain ⟨so, se⟩ := sys0
  cases hb : fn t ⟨.buffer 0, .buffer 1⟩ with
  | mk out err oc =>
    cases oc with
    | normal =>
      refine ⟨⟨0, out, err⟩, ?_, ?_, ?_⟩
      · simp [inlineRun, hprep, hb]
      · intro tb htb
        simp [hb] at htb
      · intro c hc
        simp [hb] at hc
    | exitWith code =>
      refine ⟨⟨exitCodeOfSysExit code, out, err⟩, ?_, ?_, ?_⟩
      · simp [inlineRun, hprep, hb]
      · intro tb htb
        simp [hb] at htb
      · intro c hc
        simp [hb] at hc
        simp [hc, exitCodeOfSysExit]
    | raised tb0 =>
      refine ⟨⟨1, out, err ++ tb0⟩, ?_, ?_, ?_⟩
      · simp [inlineRun, hprep, hb]
      · intro tb htb
        simp [hb] at htb
        subst htb
        simp [hb, RunResult.ok]
      · intro c hc
        simp [hb] at hc

theorem c6_inline_never_raises_witness :
    ∃ r : RunResult,
      inlineRun (fun _ _ => ⟨"", "boom: ", .raised "TracebackX"⟩) []
        ⟨.real 0, .real 1⟩ = .ok (r, ⟨.real 0, .real 1⟩) ∧
      (∀ tb, (CallBehavior.mk "" "boom: " (.raised "TracebackX")).outcome = .raised tb →
         r.exit_code = 1 ∧ r.ok = false ∧
         r.stderr = (CallBehavior.mk "" "boom: " (.raised "TracebackX")).err ++ tb) ∧
      (∀ c, (CallBehavior.mk "" "boom: " (.raised "TracebackX")).outcome = .exitWith (.int c) →
         r.exit_code = c) :=
  c6_inline_never_raises (fun _ _ => ⟨"", "boom: ", .raised "TracebackX"⟩) []
    ⟨.real 0, .real 1⟩ none rfl

/-- C7 counterexample: staging the spec's own Scenario B input
`{"pop": "./local/pop.csv"}` with the file present does NOT return the URI
unchanged — `Path` construction normalizes it to `local/pop.csv`. -/
theorem c7_counterexample :
    stageFiles (fun p => p = "local/pop.csv") "/stage"
      [("pop", "./local/pop.csv")] = .ok [("pop", "local/pop.csv")] ∧
    ("local/pop.csv" : String) ≠ "./local/pop.csv" := by
  constructor
  · rfl
  · decide

/-- C7 (amended): staging a schemeless or file-scheme URI whose local file
exists returns the URI's local path as normalized by `Path` construction
(single dots and duplicate slashes collapsed, the `file` scheme prefix
stripped); when the file is absent it raises a not-found error naming the
logical key; an `s3` URI raises a named not-implemented error; any other
scheme raises an unsupported-scheme error naming the key; and a failing
entry makes `stage_files` fail with that same error. -/
theorem c7_stage_dispatch (fs : String → Bool) (stageDir name uri : String) :
    ((splitScheme uri).1 = "" →
       (fs (pathStr uri) = true →
          stageOne fs stageDir name uri = .ok (pathStr uri)) ∧
       (fs (pathStr uri) = false →
          stageOne fs stageDir name uri = .error (.fileNotFoundError
            ("File not found for '" ++ name ++ "': " ++ pathStr uri)))) ∧
    ((splitScheme uri).1 = "file" →
       (fs (pathStr (uriPath uri)) = true →
          stageOne fs stageDir name uri = .ok (pathStr (uriPath uri))) ∧
       (fs (pathStr (uriPath uri)) = false →
          stageOne fs stageDir name uri = .error (.fileNotFoundError
            ("File not found for '" ++ name ++ "': " ++ pathStr (uriPath uri))))) ∧
    ((splitScheme uri).1 = "s3" →
       stageOne fs stageDir name uri = .error (.notImplementedError
         ("S3 staging not yet implemented for '" ++ name ++ "': " ++ uri ++
          ". Use a local path or HTTP URL for now."))) ∧
    ((splitScheme uri).1 ≠ "" → (splitScheme uri).1 ≠ "file" →
     (splitScheme uri).1 ≠ "http" → (splitScheme uri).1 ≠ "https" →
     (splitScheme uri).1 ≠ "s3" →
       stageOne fs stageDir name uri = .error (.valueError
         ("Unsupported URI scheme '" ++ (splitScheme uri).1 ++ "' for '" ++
          name ++ "': " ++ uri))) ∧
    (∀ err rest, stageOne fs stageDir name uri = .error err →
       stageFiles fs stageDir ((name, uri) :: rest) = .error err) := by
  refine ⟨?_, ?_, ?_, ?_, ?_⟩
  · intro hs
    constructor
    · intro hfs
      simp [stageOne, hs, hfs]
    · intro hfs
      simp [stageOne, hs, hfs]
  · intro hs
    constructor
    · intro hfs
      simp [stageOne, hs, hfs]
    · intro hfs
      simp [stageOne, hs, hfs]
  · intro hs
    simp [stageOne, hs]
  · intro h1 h2 h3 h4 h5
    simp [stageOne, h1, h2, h3, h4, h5]
  · intro err rest herr
    simp [stageFiles, herr]

theorem c7_stage_dispatch_witness :
    stageOne (fun p => p = "local/pop.csv") "/s" "pop" "./local/pop.csv" =
      .ok "local/pop.csv" ∧
    stageOne (fun _ => false) "/s" "pop" "./local/pop.csv" =
      .error (.fileNotFoundError "File not found for 'pop': local/pop.csv") ∧
    stageOne (fun _ => true) "/s" "pop" "s3://b/k" =
      .error (.notImplementedError
        "S3 staging not yet implemented for 'pop': s3://b/k. Use a local path or HTTP URL for now.") ∧
    stageOne (fun _ => true) "/s" "pop" "ftp://b/k" =
      .error (.valueError "Unsupported URI scheme 'ftp' for 'pop': ftp://b/k") ∧
    stageFiles (fun _ => true) "/s" [("pop", "s3://b/k")] =
      .error (.notImplementedError
        "S3 staging not yet implemented for 'pop': s3://b/k. Use a local path or HTTP URL for now.") := by
  refine ⟨?_, ?_, ?_, ?_, ?_⟩
  · exact ((c7_stage_dispatch (fun p => p = "local/pop.csv") "/s" "pop"
      "./local/pop.csv").1 rfl).1 (by decide)
  · exact ((c7_stage_dispatch (fun _ => false) "/s" "pop"
      "./local/pop.csv").1 rfl).2 rfl
  · exact (c7_stage_dispatch (fun _ => true) "/s" "pop" "s3://b/k").2.2.1 rfl
  · exact (c7_stage_dispatch (fun _ => true) "/s" "pop" "ftp://b/k").2.2.2.1
      (by decide) (by decide) (by decide) (by decide) (by decide)
  · exact (c7_stage_dispatch (fun _ => true) "/s" "pop" "s3://b/k").2.2.2.2
      _ [] ((c7_stage_dispatch (fun _ => true) "/s" "pop" "s3://b/k").2.2.1 rfl)

/-- C5: profile selection returns the section unchanged when it has no
`profile` key; a copy of the named profile when the name is given and
declared; else the profile literally named `default` when one exists; else
the first declared profile — and it never fails when a requested name is
absent, silently falling back instead (last conjunct: selection succeeds
for every mapping-shaped profile table regardless of the requested
name). -/
theorem c5_profile_selection (sect : JObj) (name : Option String) (ps : JObj) :
    (lookupJ "profile" sect = none → selectProfile sect name = .ok sect) ∧
    (lookupJ "profile" sect = some (.obj ps) → ps ≠ [] →
      ((∀ n pv, name = some n → n ≠ "" → lookupJ n ps = some (.obj pv) →
          selectProfile sect name = .ok pv) ∧
       ((∀ n, name = some n → n = "" ∨ lookupJ n ps = none) →
          ((∀ dv, lookupJ "default" ps = some (.obj dv) →
              selectProfile sect name = .ok dv) ∧
           (lookupJ "default" ps = none →
              ∀ k₀ v₀ rest, ps = (k₀, .obj v₀) :: rest →
                selectProfile sect name = .ok v₀))) ∧
       ((∀ kv, kv ∈ ps → ∃ o, kv.2 = .obj o) →
          ∃ flat, selectProfile sect name = .ok flat))) := by
  constructor
  · intro h
    simp [selectProfile, h]
  · intro hp hne
    have htr : truthy (.obj ps) = true := by
      simp [truthy, hne]
    have hget : ∀ k w, lookupJ k ps = some w → (∀ kv, kv ∈ ps → ∃ o, kv.2 = JValue.obj o) →
        ∃ o, asObj ((lookupJ k ps).getD .null) = .ok o := by
      intro k w hw hshape
      obtain ⟨o, ho⟩ := hshape (k, w) (lookupJ_mem ps k w hw)
      simp only at ho
      exact ⟨o, by simp [hw, ho, asObj]⟩
    refine ⟨?_, ?_, ?_⟩
    · intro n pv hn hne' hlook
      subst hn
      have hk : hasKey n ps = true := by
        simp [hasKey, hlook]
      simp [selectProfile, hp, htr, hne', hk, hlook, asObj]
    · intro hmiss
      constructor
      · intro dv hdv
        have hk : hasKey "default" ps = true := by
          simp [hasKey, hdv]
        cases name with
        | none => simp [selectProfile, hp, htr, hk, hdv, asObj]
        | some n =>
          rcases hmiss n rfl with h | h
          · subst h
            simp [selectProfile, hp, htr, hk, hdv, asObj]
          · have hkn : hasKey n ps = false := by
              simp [hasKey, h]
            simp [selectProfile, hp, htr, hk, hkn, hdv, asObj]
      · intro hdnone k₀ v₀ rest hps
        have hk : hasKey "default" ps = false := by
          simp [hasKey, hdnone]
        cases name with
        | none =>
          subst hps
          simp [selectProfile, hp, htr, hk, keysOf, asObj]
        | some n =>
          rcases hmiss n rfl with h | h
          · subst h
            subst hps
            simp [selectProfile, hp, htr, hk, keysOf, asObj]
          · have hkn : hasKey n ps = false := by
              simp [hasKey, h]
            subst hps
            simp [selectProfile, hp, htr, hk, hkn, keysOf, asObj]
    · intro hshape
      have hfall : ∃ flat, (if hasKey "default" ps
          then asObj ((lookupJ "default" ps).getD .null)
          else asObj ((lookupJ ((keysOf ps).head?.getD "") ps).getD .null)) = .ok flat := by
        by_cases hd : hasKey "default" ps
        · obtain ⟨w, hw⟩ := Option.isSome_iff_exists.mp hd
          obtain ⟨o, ho⟩ := hget "default" w hw hshape
          exact ⟨o, by simp [hd, ho]⟩
        · obtain ⟨⟨k₀, v₀⟩, rest, hps⟩ := List.exists_cons_of_ne_nil hne
          have hlook : lookupJ ((keysOf ps).head?.getD "") ps = some v₀ := by
            subst hps
            simp [keysOf]
          obtain ⟨o, ho⟩ := hget _ v₀ hlook hshape
          exact ⟨o, by simp [hd, ho]⟩
      cases name with
      | none =>
        obtain ⟨flat, hflat⟩ := hfall
        exact ⟨flat, by simpa [selectProfile, hp, htr] using hflat⟩
      | some n =>
        by_cases hn0 : n = ""
        · subst hn0
          obtain ⟨flat, hflat⟩ := hfall
          exact ⟨flat, by simpa [selectProfile, hp, htr] using hflat⟩
        · by_cases hkn : hasKey n ps
          · obtain ⟨w, hw⟩ := Option.isSome_iff_exists.mp hkn
            obtain ⟨o, ho⟩ := hget n w hw hshape
            exact ⟨o, by simp [selectProfile, hp, htr, hn0, hkn, ho]⟩
          · obtain ⟨flat, hflat⟩ := hfall
            have hkn' : hasKey n ps = false := by
              simpa using hkn
            exact ⟨flat, by simpa [selectProfile, hp, htr, hn0, hkn'] using hflat⟩

theorem c5_profile_selection_witness :
    selectProfile [("profile", .obj
        [("default", .obj [("spec", .str "stdout")]),
         ("x", .obj [("spec", .str "filesystem")])])] (some "x") =
      .ok [("spec", .str "filesystem")] ∧
    selectProfile [("profile", .obj
        [("default", .obj [("spec", .str "stdout")]),
         ("x", .obj [("spec", .str "filesystem")])])] none =
      .ok [("spec", .str "stdout")] ∧
    selectProfile [("profile", .obj
        [("a", .obj [("u", .int 1)]), ("b", .obj [("u", .int 2)])])] (some "zz") =
      .ok [("u", .int 1)] ∧
    selectProfile [("spec", .str "stdout")] (some "x") =
      .ok [("spec", .str "stdout")] := by
  refine ⟨?_, ?_, ?_, ?_⟩
  · exact ((c5_profile_selection
      [("profile", .obj [("default", .obj [("spec", .str "stdout")]),
        ("x", .obj [("spec", .str "filesystem")])])] (some "x")
      [("default", .obj [("spec", .str "stdout")]),
       ("x", .obj [("spec", .str "filesystem")])]).2 rfl (by simp)).1 "x"
      [("spec", .str "filesystem")] rfl (by decide) rfl
  · exact (((c5_profile_selection
      [("profile", .obj [("default", .obj [("spec", .str "stdout")]),
        ("x", .obj [("spec", .str "filesystem")])])] none
      [("default", .obj [("spec", .str "stdout")]),
       ("x", .obj [("spec", .str "filesystem")])]).2 rfl (by simp)).2.1
      (fun n h => by simp at h)).1 [("spec", .str "stdout")] rfl
  · exact (((c5_profile_selection
      [("profile", .obj [("a", .obj [("u", .int 1)]), ("b", .obj [("u", .int 2)])])]
      (some "zz")
      [("a", .obj [("u", .int 1)]), ("b", .obj [("u", .int 2)])]).2 rfl
        (by simp)).2.1
      (fun n h => by
        simp at h
        subst h
        right
        rfl)).2 rfl "a" [("u", .int 1)] [("b", .obj [("u", .int 2)])] rfl
  · exact (c5_profile_selection [("spec", .str "stdout")] (some "x") []).1 rfl

/-- C8: a model-side context built from a transport recovers `input` minus
the `seed` and `replicate` keys exactly, with `seed` and `replicate`
recovered separately as (coerced) integers defaulting to 0 when absent;
in particular the transport `{"input": {"seed": 42}}` yields seed 42 and
empty input. -/
theorem c8_context_roundtrip :
    (∀ data c I, ctxOfTransport data = .ok c →
       lookupJ "input" data = some (.obj I) →
       c.input = eraseKey "replicate" (eraseKey "seed" I) ∧
       (lookupJ "seed" I = none → c.seed = 0) ∧
       (∀ v, lookupJ "seed" I = some v → pyInt v = .ok c.seed) ∧
       (lookupJ "replicate" I = none → c.replicate = 0) ∧
       (∀ v, lookupJ "replicate" I = some v → pyInt v = .ok c.replicate)) ∧
    ctxOfTransport [("input", .obj [("seed", .int 42)])] =
      .ok ⟨[], 42, 0, [], .obj []⟩ := by
  constructor
  · intro data c I hok hin
    simp only [ctxOfTransport, hin, exceptPure_eq_ok, exceptBind_ok] at hok
    obtain ⟨⟨seedv, I₁⟩, hseed, hok⟩ := bind_eq_ok.mp hok
    obtain ⟨⟨replv, I₂⟩, hrepl, hok⟩ := bind_eq_ok.mp hok
    have hfields : c.input = I₂ ∧ c.seed = seedv ∧ c.replicate = replv := by
      split at hok
      · simp only [lookupJ_nil, Except.ok.injEq] at hok
        rw [← hok]
        exact ⟨rfl, rfl, rfl⟩
      · split at hok
        · simp only [Except.ok.injEq] at hok
          rw [← hok]
          exact ⟨rfl, rfl, rfl⟩
        · obtain ⟨fs, hfs, hok⟩ := bind_eq_ok.mp hok
          simp only [Except.ok.injEq] at hok
          rw [← hok]
          exact ⟨rfl, rfl, rfl⟩
        · simp at hok
      · simp at hok
    -- characterize the seed pop
    have hseedFacts : (lookupJ "seed" I = none → seedv = 0 ∧ I₁ = I) ∧
        (∀ v, lookupJ "seed" I = some v →
          pyInt v = .ok seedv ∧ I₁ = eraseKey "seed" I) := by
      constructor
      · intro hs
        simp [popIntDefault0, hs] at hseed
        exact ⟨hseed.1.symm, hseed.2.symm⟩
      · intro v hs
        simp only [popIntDefault0, hs, map_eq_ok] at hseed
        obtain ⟨n, hn, heq⟩ := hseed
        obtain ⟨h1, h2⟩ := Prod.mk.injEq .. ▸ heq
        exact ⟨h1 ▸ hn, h2.symm⟩
    have hreplI : lookupJ "replicate" I₁ = lookupJ "replicate" I := by
      cases hs : lookupJ "seed" I with
      | none => rw [(hseedFacts.1 hs).2]
      | some v =>
        rw [(hseedFacts.2 v hs).2]
        exact lookupJ_eraseKey_ne I "replicate" "seed" (by decide)
    have hreplFacts : (lookupJ "replicate" I = none → replv = 0 ∧ I₂ = I₁) ∧
        (∀ v, lookupJ "replicate" I = some v →
          pyInt v = .ok replv ∧ I₂ = eraseKey "replicate" I₁) := by
      constructor
      · intro hs
        rw [← hreplI] at hs
        simp [popIntDefault0, hs] at hrepl
        exact ⟨hrepl.1.symm, hrepl.2.symm⟩
      · intro v hs
        rw [← hreplI] at hs
        simp only [popIntDefault0, hs, map_eq_ok] at hrepl
        obtain ⟨n, hn, heq⟩ := hrepl
        obtain ⟨h1, h2⟩ := Prod.mk.injEq .. ▸ heq
        exact ⟨h1 ▸ hn, h2.symm⟩
    refine ⟨?_, ?_, ?_, ?_, ?_⟩
    · -- c.input = I₂ equals the two-key erasure of I
      rw [hfields.1]
      cases hs : lookupJ "seed" I with
      | none =>
        have hI₁ : I₁ = I := (hseedFacts.1 hs).2
        have hIe : eraseKey "seed" I = I := eraseKey_of_lookup_none I "seed" hs
        cases hr : lookupJ "replicate" I with
        | none =>
          have hI₂ : I₂ = I₁ := (hreplFacts.1 hr).2
          rw [hI₂, hI₁, hIe, eraseKey_of_lookup_none I "replicate" hr]
        | some v =>
          rw [(hreplFacts.2 v hr).2, hI₁, hIe]
      | some v =>
        have hI₁ : I₁ = eraseKey "seed" I := (hseedFacts.2 v hs).2
        cases hr : lookupJ "replicate" I with
        | none =>
          have hre : lookupJ "replicate" I₁ = none := by rw [hreplI]; exact hr
          rw [(hreplFacts.1 hr).2, hI₁,
            eraseKey_of_lookup_none _ "replicate" (hI₁ ▸ hre)]
        | some w =>
          rw [(hreplFacts.2 w hr).2, hI₁]
    · intro hs
      rw [hfields.2.1]
      exact (hseedFacts.1 hs).1
    · intro v hs
      rw [hfields.2.1]
      exact (hseedFacts.2 v hs).1
    · intro hr
      rw [hfields.2.2]
      exact (hreplFacts.1 hr).1
    · intro v hr
      rw [hfields.2.2]
      exact (hreplFacts.2 v hr).1
  · rfl

theorem c8_context_roundtrip_witness :
    ∃ c : Ctx, ctxOfTransport
        [("input", .obj [("r0", .int 3), ("seed", .str "7"), ("replicate", .int 2)])]
        = .ok c ∧
      c.input = [("r0", .int 3)] ∧ c.seed = 7 ∧ c.replicate = 2 := by
  refine ⟨⟨[("r0", .int 3)], 7, 2, [], .obj []⟩, rfl, ?_, rfl, rfl⟩
  have h := (c8_context_roundtrip.1
    [("input", .obj [("r0", .int 3), ("seed", .str "7"), ("replicate", .int 2)])]
    ⟨[("r0", .int 3)], 7, 2, [], .obj []⟩
    [("r0", .int 3), ("seed", .str "7"), ("replicate", .int 2)] rfl rfl).1
  exact h

theorem deepMerge_nil (A : JObj) : deepMerge A [] = A :=
  deepMerge.eq_1 A

theorem deepMerge_cons (A : JObj) (k : String) (v : JValue) (rest : JObj) :
    deepMerge A ((k, v) :: rest) = deepMerge (mergeInto A k v) rest :=
  deepMerge.eq_2 A k v rest

theorem lookupJ_mergeInto_ne (A : JObj) (k₀ k : String) (v : JValue)
    (h : k₀ ≠ k) : lookupJ k (mergeInto A k₀ v) = lookupJ k A := by
  rw [mergeInto.eq_def]
  split <;> exact lookupJ_setKey_ne A k k₀ _ h

theorem lookupJ_mergeInto_self (A : JObj) (k : String) (v : JValue) :
    lookupJ k (mergeInto A k v) =
      some (match lookupJ k A, v with
        | some (.obj bsub), .obj usub => .obj (deepMerge bsub usub)
        | _, _ => v) := by
  rw [mergeInto.eq_def]
  rcases hA : lookupJ k A with _ | av
  · cases v <;> simp [hA, lookupJ_setKey_self]
  · cases av <;> cases v <;> simp [hA, lookupJ_setKey_self]

theorem lookupJ_none_of_not_mem_keys (o : JObj) (k : String)
    (h : k ∉ keysOf o) : lookupJ k o = none := by
  induction o with
  | nil => rfl
  | cons p rest ih =>
    obtain ⟨k', v⟩ := p
    simp only [keysOf, List.map_cons, List.mem_cons, not_or] at h
    have hk : ¬ k' = k := fun he => h.1 he.symm
    simp only [lookupJ_cons, hk, if_false]
    exact ih (by simpa [keysOf] using h.2)

/-- C4: `_deep_merge` (behind `apply_dict_overrides`, which deep-copies its
first argument so neither input is mutated) satisfies, at every key: keys
where both sides hold nested dicts merge recursively; every other key
present in the override takes the override value wholesale (including a
scalar replacing a dict); keys present only in the base keep the base
value. -/
theorem c4_deep_merge (A B : JObj) (hB : (keysOf B).Nodup) (k : String) :
    lookupJ k (deepMerge A B) =
      match lookupJ k A, lookupJ k B with
      | some (.obj bsub), some (.obj usub) => some (.obj (deepMerge bsub usub))
      | _, some v => some v
      | some v, none => some v
      | none, none => none := by
  induction B generalizing A with
  | nil =>
    rw [deepMerge_nil]
    cases hA : lookupJ k A <;> simp
  | cons p rest ih =>
    obtain ⟨k₀, v₀⟩ := p
    simp only [keysOf, List.map_cons, List.nodup_cons] at hB
    obtain ⟨hk₀, hrest⟩ := hB
    have hrest' : (keysOf rest).Nodup := by simpa [keysOf] using hrest
    rw [deepMerge_cons, ih _ hrest']
    by_cases hk : k₀ = k
    · subst hk
      have hrnone : lookupJ k₀ rest = none :=
        lookupJ_none_of_not_mem_keys rest k₀ (by simpa [keysOf] using hk₀)
      rw [hrnone, lookupJ_mergeInto_self]
      rcases hA : lookupJ k₀ A with _ | av
      · cases v₀ <;> simp [hA]
      · cases av <;> cases v₀ <;> simp [hA]
    · have hlk : lookupJ k ((k₀, v₀) :: rest) = lookupJ k rest := by
        simp [hk]
      rw [hlk, lookupJ_mergeInto_ne A k₀ k v₀ hk]

theorem c4_deep_merge_witness :
    lookupJ "a" (deepMerge
        [("a", .obj [("x", .int 1), ("y", .int 2)]), ("b", .int 5)]
        [("a", .obj [("y", .int 9), ("z", .int 3)]), ("c", .str "n")]) =
      some (.obj [("x", .int 1), ("y", .int 9), ("z", .int 3)]) := by
  have h := c4_deep_merge
    [("a", .obj [("x", .int 1), ("y", .int 2)]), ("b", .int 5)]
    [("a", .obj [("y", .int 9), ("z", .int 3)]), ("c", .str "n")]
    (by simp [keysOf]) "a"
  rw [h]
  simp [deepMerge_cons, deepMerge_nil, mergeInto.eq_def, setKey]

/-! ## `build_run_json` stage lemmas -/

theorem stripRuntimeStage_preserves (r t : JObj) (k : String)
    (hk : k ≠ "runtime") (h : stripRuntimeStage r = .ok t) :
    lookupJ k t = lookupJ k r := by
  unfold stripRuntimeStage at h
  split at h
  · cases h
    rfl
  · obtain ⟨r', _, ht⟩ := map_eq_ok.mp h
    rw [← ht]
    exact lookupJ_setKey_ne r k "runtime" _ hk.symm
  · cases h

theorem stagedFilesStage_preserves (r t : JObj)
    (staged : List (String × String)) (k : String) (hk : k ≠ "model")
    (h : stagedFilesStage r staged = .ok t) : lookupJ k t = lookupJ k r := by
  unfold stagedFilesStage at h
  split at h
  · cases h
    rfl
  · split at h
    · cases h
      rw [lookupJ_append]
      cases hl : lookupJ k r with
      | some v => rfl
      | none => simp [Ne.symm hk]
    · cases h
      exact lookupJ_setKey_ne r k "model" _ hk.symm
    · cases h

theorem defaultOutputStage_preserves (r : JObj) (k : String)
    (hk : k ≠ "output") :
    lookupJ k (defaultOutputStage r) = lookupJ k r := by
  unfold defaultOutputStage
  split
  · rfl
  · rw [lookupJ_append]
    cases hl : lookupJ k r with
    | some v => rfl
    | none => simp [Ne.symm hk]

theorem injectOutputDirStage_preserves (r t : JObj)
    (od op : Option String) (k : String) (hk : k ≠ "output")
    (h : injectOutputDirStage r od op = .ok t) : lookupJ k t = lookupJ k r := by
  unfold injectOutputDirStage at h
  obtain ⟨oObj, hoObj, h⟩ := bind_eq_ok.mp h
  obtain ⟨sel, hsel, h⟩ := bind_eq_ok.mp h
  unfold injectCore at h
  split at h
  · cases h
    rfl
  · split at h
    · split at h
      · split at h
        · split at h
          · cases h
          · cases h
            exact lookupJ_setKey_ne r k "output" _ hk.symm
          · cases h
        · cases h
      · cases h
        exact lookupJ_setKey_ne r k "output" _ hk.symm
    · cases h
      rfl

theorem attachMrpStage_preserves (r : JObj) (k : String) (hk : k ≠ "mrp") :
    lookupJ k (attachMrpStage r) = lookupJ k r :=
  lookupJ_setKey_ne r k "mrp" _ hk.symm

/-- The transport property asserted by the spec: no `command`/`args` key
under `runtime` or directly under any of its profiles. -/
def spawnFree (t : JObj) : Bool :=
  match lookupJ "runtime" t with
  | some (.obj r) =>
    !hasKey "command" r && !hasKey "args" r &&
    (match lookupJ "profile" r with
     | some (.obj ps) => ps.all (fun kv =>
         match kv.2 with
         | .obj pv => !hasKey "command" pv && !hasKey "args" pv
         | _ => true)
     | _ => true)
  | _ => true

theorem stripProfiles_clean (ps ps' : List (String × JValue))
    (h : stripProfiles ps = .ok ps') :
    ps'.all (fun kv =>
      match kv.2 with
      | .obj pv => !hasKey "command" pv && !hasKey "args" pv
      | _ => true) = true := by
  induction ps generalizing ps' with
  | nil =>
    cases h
    rfl
  | cons p rest ih =>
    obtain ⟨k, v⟩ := p
    unfold stripProfiles at h
    obtain ⟨v', hv, h⟩ := bind_eq_ok.mp h
    obtain ⟨rest', hrest, h⟩ := bind_eq_ok.mp h
    simp only [exceptPure_eq_ok, Except.ok.injEq] at h
    subst h
    cases v with
    | obj pv =>
      simp only [stripOneProfile, Except.ok.injEq] at hv
      subst hv
      have h1 : hasKey "command" (eraseKey "args" (eraseKey "command" pv)) = false := by
        rw [hasKey_false_iff, lookupJ_eraseKey_ne _ _ _ (by decide),
          lookupJ_eraseKey_self]
      have h2 : hasKey "args" (eraseKey "args" (eraseKey "command" pv)) = false := by
        rw [hasKey_false_iff, lookupJ_eraseKey_self]
      simp only [List.all_cons, Bool.and_eq_true]
      exact ⟨by simp [h1, h2], ih rest' hrest⟩
    | null => simp [stripOneProfile] at hv
    | bool b => simp [stripOneProfile] at hv
    | int n => simp [stripOneProfile] at hv
    | str sv => simp [stripOneProfile] at hv
    | arr l => simp [stripOneProfile] at hv

/-- C2 counterexample: a config whose runtime section is simultaneously
flat (carrying `command`) and profiled keeps its flat `command` in the
transport — only the profiles are stripped. -/
theorem c2_counterexample :
    (buildRunJson
      [("runtime", .obj [("command", .str "x"),
        ("profile", .obj [("a", .obj [("b", .int 1)])])])]
      [] none none).map spawnFree = .ok false := rfl

/-- C2 (amended): for every config whose runtime section does not carry
flat `command`/`args` keys alongside a truthy profile map (the data
model's flat-xor-profiled rule), the transport returned by
`build_run_json` contains no `command` or `args` key under `runtime` or
under any of its profiles. -/
theorem c2_transport_spawn_free (config : JObj)
    (staged : List (String × String)) (od op : Option String) (t : JObj)
    (hok : buildRunJson config staged od op = .ok t)
    (hflat : ∀ r, lookupJ "runtime" config = some (.obj r) →
       truthyOpt (lookupJ "profile" r) = true →
       lookupJ "command" r = none ∧ lookupJ "args" r = none) :
    spawnFree t = true := by
  unfold buildRunJson at hok
  obtain ⟨r1, h1, hok⟩ := bind_eq_ok.mp hok
  obtain ⟨r2, h2, hok⟩ := bind_eq_ok.mp hok
  obtain ⟨r4, h4, hok⟩ := bind_eq_ok.mp hok
  simp only [exceptPure_eq_ok, Except.ok.injEq] at hok
  have hrt : lookupJ "runtime" t = lookupJ "runtime" r1 := by
    rw [← hok, attachMrpStage_preserves _ _ (by decide),
      injectOutputDirStage_preserves _ _ _ _ _ (by decide) h4,
      defaultOutputStage_preserves _ _ (by decide),
      stagedFilesStage_preserves _ _ _ _ (by decide) h2]
  unfold stripRuntimeStage at h1
  split at h1
  · rename_i hnone
    cases h1
    unfold spawnFree
    rw [hrt, hnone]
  · rename_i r hr
    obtain ⟨r', hstrip, ht1⟩ := map_eq_ok.mp h1
    have hrt' : lookupJ "runtime" t = some (.obj r') := by
      rw [hrt, ← ht1, lookupJ_setKey_self]
    unfold stripSpawnKeys at hstrip
    split at hstrip
    · rename_i p hp
      split at hstrip
      · rename_i htr
        split at hstrip
        · rename_i ps
          obtain ⟨ps', hps', hr'⟩ := bind_eq_ok.mp hstrip
          cases hr'
          obtain ⟨hc, ha⟩ := hflat r hr (by rw [hp]; exact htr)
          unfold spawnFree
          rw [hrt']
          have hc' : hasKey "command" (setKey r "profile" (.obj ps')) = false := by
            rw [hasKey_false_iff, lookupJ_setKey_ne _ _ _ _ (by decide)]
            exact hc
          have ha' : hasKey "args" (setKey r "profile" (.obj ps')) = false := by
            rw [hasKey_false_iff, lookupJ_setKey_ne _ _ _ _ (by decide)]
            exact ha
          simp only [hc', ha', lookupJ_setKey_self, Bool.not_false, Bool.true_and]
          exact stripProfiles_clean ps ps' hps'
        · cases hstrip
      · rename_i htr
        cases hstrip
        unfold spawnFree
        rw [hrt']
        have hc' : hasKey "command" (eraseKey "args" (eraseKey "command" r)) = false := by
          rw [hasKey_false_iff, lookupJ_eraseKey_ne _ _ _ (by decide),
            lookupJ_eraseKey_self]
        have ha' : hasKey "args" (eraseKey "args" (eraseKey "command" r)) = false := by
          rw [hasKey_false_iff, lookupJ_eraseKey_self]
        have hpr : lookupJ "profile" (eraseKey "args" (eraseKey "command" r)) =
            lookupJ "profile" r := by
          rw [lookupJ_eraseKey_ne _ _ _ (by decide),
            lookupJ_eraseKey_ne _ _ _ (by decide)]
        simp only [hc', ha', hpr, hp, Bool.not_false, Bool.true_and]
        cases p with
        | obj ps =>
          cases ps with
          | nil => rfl
          | cons q qs =>
            exfalso
            exact htr (by simp [truthy])
        | null => rfl
        | bool b => rfl
        | int n => rfl
        | str s => rfl
        | arr l => rfl
    · rename_i hp
      cases hstrip
      unfold spawnFree
      rw [hrt']
      have hc' : hasKey "command" (eraseKey "args" (eraseKey "command" r)) = false := by
        rw [hasKey_false_iff, lookupJ_eraseKey_ne _ _ _ (by decide),
          lookupJ_eraseKey_self]
      have ha' : hasKey "args" (eraseKey "args" (eraseKey "command" r)) = false := by
        rw [hasKey_false_iff, lookupJ_eraseKey_self]
      have hpr : lookupJ "profile" (eraseKey "args" (eraseKey "command" r)) =
          lookupJ "profile" r := by
        rw [lookupJ_eraseKey_ne _ _ _ (by decide),
          lookupJ_eraseKey_ne _ _ _ (by decide)]
      simp [hc', ha', hpr, hp]
  · cases h1

theorem c2_transport_spawn_free_witness :
    ∃ t, buildRunJson
        [("runtime", .obj [("command", .str "py"), ("args", .arr [.str "a"]),
          ("spec", .str "process")])]
        [] none none = .ok t ∧ spawnFree t = true := by
  obtain ⟨t, ht⟩ : ∃ t, buildRunJson
      [("runtime", .obj [("command", .str "py"), ("args", .arr [.str "a"]),
        ("spec", .str "process")])]
      [] none none = .ok t := ⟨_, rfl⟩
  refine ⟨t, ht, c2_transport_spawn_free _ [] none none t ht ?_⟩
  intro r hr htr
  simp at hr
  subst hr
  simp [truthyOpt, lookupJ] at htr

/-! ## SHA-256 digest bounds -/

/-- All eight working variables are 32-bit words. -/
def bounded32 (st : Hash8) : Prop :=
  st.a < M32 ∧ st.b < M32 ∧ st.c < M32 ∧ st.d < M32 ∧
  st.e < M32 ∧ st.f < M32 ∧ st.g < M32 ∧ st.h < M32

theorem mod32_lt (x : Nat) : mod32 x < M32 :=
  Nat.mod_lt _ (by decide)

theorem compressBlock_bounded (st : Hash8) (blk : List Nat) :
    bounded32 (compressBlock st blk) :=
  ⟨mod32_lt _, mod32_lt _, mod32_lt _, mod32_lt _,
   mod32_lt _, mod32_lt _, mod32_lt _, mod32_lt _⟩

theorem foldl_compress_bounded (blocks : List (List Nat)) (st : Hash8)
    (hst : bounded32 st) : bounded32 (blocks.foldl compressBlock st) := by
  induction blocks generalizing st with
  | nil => exact hst
  | cons b rest ih => exact ih _ (compressBlock_bounded st b)

theorem sha256State_bounded (msg : List Nat) : bounded32 (sha256State msg) :=
  foldl_compress_bounded _ H256
    ⟨by decide, by decide, by decide, by decide,
     by decide, by decide, by decide, by decide⟩

theorem sha256Nat_lt (msg : List Nat) : sha256Nat msg < 2 ^ 256 := by
  obtain ⟨h1, h2, h3, h4, h5, h6, h7, h8⟩ := sha256State_bounded msg
  unfold sha256Nat
  simp only [List.foldl]
  simp only [M32] at h1 h2 h3 h4 h5 h6 h7 h8 ⊢
  omega

/-- The first 16 characters of a 64-nibble hex rendering depend only on
the top 64 bits. -/
theorem take16_hexChars (x y : Nat) (h : x / 16 ^ 48 = y / 16 ^ 48) :
    (hexChars 64 x).take 16 = (hexChars 64 y).take 16 := by
  unfold hexChars
  rw [← List.map_take, ← List.map_take, List.take_range]
  norm_num
  intro i hi
  have he : 63 - i = 48 + (15 - i) := by omega
  rw [he, pow_add, ← Nat.div_div_eq_div_mul, ← Nat.div_div_eq_div_mul, h]

/-- The family of transports that differ from one another in exactly the
single field `input.seed`. -/
def seedTransport (n : Nat) : JObj := [("input", .obj [("seed", .int n)])]

/-- C3 counterexample (negation of single-field injectivity): the
fingerprint is 16 hex characters — 64 bits — so among the infinitely many
transports differing only in `input.seed` two distinct ones share an
`input_hash`. -/
theorem c3_counterexample :
    ¬ (∀ n m : Nat, n ≠ m →
        inputHashOf (seedTransport n) ≠ inputHashOf (seedTransport m)) := by
  intro h
  have hb : ∀ n : Nat,
      sha256Nat (asciiBytes (dumpsCanonical (.obj (seedTransport n)))) / 16 ^ 48
        < 2 ^ 64 := by
    intro n
    have hlt := sha256Nat_lt (asciiBytes (dumpsCanonical (.obj (seedTransport n))))
    have h16 : (16 : Nat) ^ 48 = 2 ^ 192 := by norm_num
    rw [h16]
    omega
  obtain ⟨n, m, hnm, heq⟩ := Finite.exists_ne_map_eq_of_infinite
    (fun n : Nat =>
      (⟨sha256Nat (asciiBytes (dumpsCanonical (.obj (seedTransport n)))) / 16 ^ 48,
        hb n⟩ : Fin (2 ^ 64)))
  apply h n m hnm
  have hv := congrArg Fin.val heq
  unfold inputHashOf
  exact congrArg String.mk (take16_hexChars _ _ hv)

/-- C3 (amended): the `input_hash` attached by `build_run_json` (for
configs that do not already carry an `mrp` key) is the 16-hex-character
truncated SHA-256 digest of the sorted-key, separator-normalized JSON
serialization of the transport excluding the `mrp` field; it has fixed
length 16; and it depends only on that canonical serialization, so
identical transport inputs yield identical hashes.  (A single field change
need not change it: the truncated digest admits collisions —
`c3_counterexample`.) -/
theorem c3_fingerprint (config : JObj) (staged : List (String × String))
    (od op : Option String) (t : JObj)
    (hok : buildRunJson config staged od op = .ok t)
    (hnomrp : lookupJ "mrp" config = none) :
    lookupJ "mrp" t = some (.obj
      [("version", .str mrpVersion),
       ("input_hash", .str (inputHashOf (eraseKey "mrp" t)))]) ∧
    (∀ r : JObj, (inputHashOf r).length = 16) ∧
    (∀ r r' : JObj, dumpsCanonical (.obj r) = dumpsCanonical (.obj r') →
       inputHashOf r = inputHashOf r') := by
  refine ⟨?_, ?_, ?_⟩
  · unfold buildRunJson at hok
    obtain ⟨r1, h1, hok⟩ := bind_eq_ok.mp hok
    obtain ⟨r2, h2, hok⟩ := bind_eq_ok.mp hok
    obtain ⟨r4, h4, hok⟩ := bind_eq_ok.mp hok
    simp only [exceptPure_eq_ok, Except.ok.injEq] at hok
    have hmrp4 : lookupJ "mrp" r4 = none := by
      rw [injectOutputDirStage_preserves _ _ _ _ _ (by decide) h4,
        defaultOutputStage_preserves _ _ (by decide),
        stagedFilesStage_preserves _ _ _ _ (by decide) h2,
        stripRuntimeStage_preserves _ _ _ (by decide) h1]
      exact hnomrp
    have happ : attachMrpStage r4 = r4 ++
        [("mrp", .obj [("version", .str mrpVersion),
          ("input_hash", .str (inputHashOf r4))])] := by
      unfold attachMrpStage
      exact setKey_of_lookup_none _ _ _ hmrp4
    have herase : eraseKey "mrp" t = r4 := by
      rw [← hok, happ, eraseKey_append_self,
        eraseKey_of_lookup_none _ _ hmrp4]
    rw [herase, ← hok, happ, lookupJ_append, hmrp4]
    simp
  · intro r
    unfold inputHashOf
    have hlen : (hexChars 64 (sha256Nat (asciiBytes (dumpsCanonical (.obj r))))).length
        = 64 := by
      unfold hexChars
      rw [List.length_map, List.length_range]
    show ((hexChars 64 _).take 16).length = 16
    rw [List.length_take, hlen]
    norm_num
  · intro r r' h
    unfold inputHashOf
    rw [h]

/-- The transport built from the spec's Scenario A config, used to
instantiate the fingerprint theorem. -/
def c3Transport : JObj :=
  (buildRunJson [("input", .obj [("seed", .int 42)])] [] none none).toOption.getD []

theorem c3_fingerprint_witness :
    lookupJ "mrp" c3Transport = some (.obj
      [("version", .str mrpVersion),
       ("input_hash", .str (inputHashOf (eraseKey "mrp" c3Transport)))]) ∧
    (inputHashOf c3Transport).length = 16 :=
  ⟨(c3_fingerprint [("input", .obj [("seed", .int 42)])] [] none none
      c3Transport rfl rfl).1,
   (c3_fingerprint [("input", .obj [("seed", .int 42)])] [] none none
      c3Transport rfl rfl).2.1 c3Transport⟩

/-! ## C1: host/model output-resolution symmetry -/

/-- A well-formed `dir` field: a string, or falsy, or absent — the shape
the wire contract's `{"spec": "filesystem", "dir": path}` guarantees. -/
def wfDir (so : JObj) : Bool :=
  match lookupJ "dir" so with
  | some (.str _) => true
  | some d => !truthy d
  | none => true

/-- A well-formed output profile map: every profile value is a mapping
with a well-formed `dir`, and a profile named `default`, when declared, is
truthy (nonempty) — as the wire contract's profile values
(`{"spec": "stdout"}` / `{"spec": "filesystem", "dir": path}`) are. -/
def wfProfileMap (ps : JObj) : Bool :=
  ps.all (fun kv => match kv.2 with | .obj so => wfDir so | _ => false) &&
  (match lookupJ "default" ps with
   | some dv => truthy dv
   | none => true)

/-- A well-formed transport output section: absent, or a mapping whose
`dir` is well-formed and whose `profile`, when truthy, is a well-formed
profile map — the shapes of the wire contract (flat filesystem, flat
stdout, or profiled with or without `default`). -/
def wfOutputVal : Option JValue → Bool
  | none => true
  | some (.obj o) =>
    wfDir o &&
    (match lookupJ "profile" o with
     | some p => !truthy p ||
        (match p with
         | .obj ps => wfProfileMap ps
         | _ => false)
     | none => true)
  | some _ => false

theorem hostDirOf_ok (so : JObj) (h : wfDir so = true) :
    ∃ res : Option String, hostDirOf so = .ok res := by
  unfold hostDirOf
  unfold wfDir at h
  rcases hd : lookupJ "dir" so with _ | d
  · exact ⟨none, rfl⟩
  · rw [hd] at h
    cases d with
    | str s =>
      by_cases hs : truthy (.str s)
      · exact ⟨some (pathStr s), by simp [hs, pathOfJ]⟩
      · exact ⟨none, by simp [hs]⟩
    | null => exact ⟨none, by simp [truthy]⟩
    | bool b =>
      simp only [Bool.not_eq_true'] at h
      exact ⟨none, by simp [h]⟩
    | int n =>
      simp only [Bool.not_eq_true'] at h
      exact ⟨none, by simp [h]⟩
    | arr l =>
      simp only [Bool.not_eq_true'] at h
      exact ⟨none, by simp [h]⟩
    | obj oo =>
      simp only [Bool.not_eq_true'] at h
      exact ⟨none, by simp [h]⟩

theorem ctxDirOf_eq_hostDirOf (so : JObj) : ctxDirOf so = hostDirOf so := rfl

theorem ctxSpecIsFS_eq_hostSpecIsFS (o : JObj) : ctxSpecIsFS o = hostSpecIsFS o := rfl

theorem ctxOfTransport_output (data : JObj) (c : Ctx)
    (h : ctxOfTransport data = .ok c) :
    c.output = (lookupJ "output" data).getD (.obj []) := by
  rcases hin : lookupJ "input" data with _ | iv
  · simp only [ctxOfTransport, hin, exceptPure_eq_ok, exceptBind_ok] at h
    obtain ⟨⟨seedv, I₁⟩, hseed, h⟩ := bind_eq_ok.mp h
    obtain ⟨⟨replv, I₂⟩, hrepl, h⟩ := bind_eq_ok.mp h
    split at h
    · simp only [lookupJ_nil, Except.ok.injEq] at h
      rw [← h]
    · split at h
      · simp only [Except.ok.injEq] at h
        rw [← h]
      · obtain ⟨fs, hfs, h⟩ := bind_eq_ok.mp h
        simp only [Except.ok.injEq] at h
        rw [← h]
      · simp at h
    · simp at h
  · cases iv with
    | obj I =>
      simp only [ctxOfTransport, hin, exceptPure_eq_ok, exceptBind_ok] at h
      obtain ⟨⟨seedv, I₁⟩, hseed, h⟩ := bind_eq_ok.mp h
      obtain ⟨⟨replv, I₂⟩, hrepl, h⟩ := bind_eq_ok.mp h
      split at h
      · simp only [lookupJ_nil, Except.ok.injEq] at h
        rw [← h]
      · split at h
        · simp only [Except.ok.injEq] at h
          rw [← h]
        · obtain ⟨fs, hfs, h⟩ := bind_eq_ok.mp h
          simp only [Except.ok.injEq] at h
          rw [← h]
        · simp at h
      · simp at h
    | null => simp [ctxOfTransport, hin] at h
    | bool b => simp [ctxOfTransport, hin] at h
    | int n => simp [ctxOfTransport, hin] at h
    | str sv => simp [ctxOfTransport, hin] at h
    | arr l => simp [ctxOfTransport, hin] at h

/-- C1: for every transport whose output section has one of the shapes the
host could have produced (absent; flat, with any spec and a contract-shaped
`dir`; or profiled with contract-shaped profiles, with or without
`default`), host-side resolution (`Runtime._prepare_output`, profile
argument defaulted as both runtimes call it) and model-side resolution
(`RunnerContext.output_dir` of the context built from the transport) agree:
both resolve the same directory, or both resolve none. -/
theorem c1_output_resolution_symmetry (t : JObj) (c : Ctx)
    (hctx : ctxOfTransport t = .ok c)
    (hwf : wfOutputVal (lookupJ "output" t) = true) :
    ∃ res : Option String,
      hostOutputDir t none = .ok res ∧ ctxOutputDir c.output = .ok res := by
  rw [ctxOfTransport_output t c hctx]
  rcases ho : lookupJ "output" t with _ | ov
  · refine ⟨none, ?_, ?_⟩
    · simp [hostOutputDir, ho, hostSpecIsFS, truthyOpt]
    · simp [ctxOutputDir, ctxSpecIsFS]
  · rw [ho] at hwf
    cases ov with
    | obj o =>
      simp only [wfOutputVal, Bool.and_eq_true] at hwf
      obtain ⟨hwd, hwp⟩ := hwf
      simp only [Option.getD_some]
      by_cases hfs : hostSpecIsFS o
      · obtain ⟨res, hres⟩ := hostDirOf_ok o hwd
        refine ⟨res, ?_, ?_⟩
        · simp only [hostOutputDir, ho, exceptPure_eq_ok, exceptBind_ok, hfs,
            if_true]
          exact hres
        · simp only [ctxOutputDir, exceptPure_eq_ok, exceptBind_ok,
            ctxSpecIsFS_eq_hostSpecIsFS, hfs, if_true, ctxDirOf_eq_hostDirOf]
          exact hres
      · rcases hp : lookupJ "profile" o with _ | p
        · refine ⟨none, ?_, ?_⟩
          · simp [hostOutputDir, ho, hfs, hp, truthyOpt]
          · simp [ctxOutputDir, ctxSpecIsFS_eq_hostSpecIsFS, hfs, hp]
        · by_cases htr : truthy p
          · rw [hp] at hwp
            simp only [htr, Bool.not_true, Bool.false_or] at hwp
            cases p with
            | obj ps =>
              simp only [wfProfileMap, Bool.and_eq_true, List.all_eq_true] at hwp
              obtain ⟨hvals, hdef⟩ := hwp
              have hne : ps ≠ [] := by
                intro he
                rw [he] at htr
                simp [truthy] at htr
              -- the value both sides select
              rcases hd : lookupJ "default" ps with _ | dv
              · -- no default: both take the first profile value
                obtain ⟨⟨k₀, v₀⟩, rest, hps⟩ := List.exists_cons_of_ne_nil hne
                have hv₀ := hvals (k₀, v₀) (by rw [hps]; exact List.mem_cons_self _ _)
                cases v₀ with
                | obj so =>
                  simp only at hv₀
                  have hsel : selectProfile o none = .ok so := by
                    have hk : hasKey "default" ps = false := by
                      simp [hasKey, hd]
                    subst hps
                    simp [selectProfile, hp, htr, hk, keysOf, asObj]
                  have hselC : (match lookupJ "default" ps with
                      | some dv => if truthy dv then dv else (ps.head?.getD ("", JValue.null)).2
                      | none => (ps.head?.getD ("", JValue.null)).2) = JValue.obj so := by
                    rw [hd]
                    subst hps
                    rfl
                  by_cases hso : truthy (.obj so)
                  · by_cases hfs2 : hostSpecIsFS so
                    · obtain ⟨res, hres⟩ := hostDirOf_ok so hv₀
                      refine ⟨res, ?_, ?_⟩
                      · simp only [hostOutputDir, ho, exceptPure_eq_ok,
                          exceptBind_ok, hfs, if_false, hp, truthyOpt, htr,
                          if_true, hsel, hfs2]
                        exact hres
                      · simp only [ctxOutputDir, exceptPure_eq_ok, exceptBind_ok,
                          ctxSpecIsFS_eq_hostSpecIsFS, hfs, if_false, hp, htr,
                          if_true, List.headD_eq_head?, hselC, hso, hfs2,
                          ctxDirOf_eq_hostDirOf]
                        exact hres
                    · refine ⟨none, ?_, ?_⟩
                      · simp [hostOutputDir, ho, hfs, hp, truthyOpt, htr, hsel, hfs2]
                      · simp [ctxOutputDir, ctxSpecIsFS_eq_hostSpecIsFS, hfs, hp,
                          htr, List.headD_eq_head?, hselC, hso, hfs2]
                  · -- first profile value is a falsy (empty) mapping
                    have hsoe : so = [] := by
                      cases so with
                      | nil => rfl
                      | cons x xs => simp [truthy] at hso
                    subst hsoe
                    have h0 : hostSpecIsFS [] = false := rfl
                    refine ⟨none, ?_, ?_⟩
                    · simp [hostOutputDir, ho, hfs, hp, truthyOpt, htr, hsel, h0]
                    · simp only [ctxOutputDir, exceptPure_eq_ok, exceptBind_ok,
                        ctxSpecIsFS_eq_hostSpecIsFS, hfs, if_false, hp, htr,
                        if_true, List.headD_eq_head?, hselC]
                      simp [truthy]
                | null => simp at hv₀
                | bool b => simp at hv₀
                | int n => simp at hv₀
                | str sv => simp at hv₀
                | arr l => simp at hv₀
              · -- default declared: both sides select it
                rw [hd] at hdef
                have hdv := hvals ("default", dv) (lookupJ_mem ps "default" dv hd)
                cases dv with
                | obj so =>
                  simp only at hdv
                  have hdeft : truthy (JValue.obj so) = true := hdef
                  have hsel : selectProfile o none = .ok so := by
                    have hk : hasKey "default" ps = true := by
                      simp [hasKey, hd]
                    simp [selectProfile, hp, htr, hk, hd, asObj]
                  have hselC : (match lookupJ "default" ps with
                      | some dv => if truthy dv then dv else (ps.head?.getD ("", JValue.null)).2
                      | none => (ps.head?.getD ("", JValue.null)).2) = JValue.obj so := by
                    rw [hd]
                    simp [hdeft]
                  by_cases hfs2 : hostSpecIsFS so
                  · obtain ⟨res, hres⟩ := hostDirOf_ok so hdv
                    refine ⟨res, ?_, ?_⟩
                    · simp only [hostOutputDir, ho, exceptPure_eq_ok,
                        exceptBind_ok, hfs, if_false, hp, truthyOpt, htr,
                        if_true, hsel, hfs2]
                      simpa using hres
                    · simp only [ctxOutputDir, exceptPure_eq_ok, exceptBind_ok,
                        ctxSpecIsFS_eq_hostSpecIsFS, hfs, if_false, hp, htr,
                        if_true, List.headD_eq_head?, hselC, hdeft, hfs2,
                        ctxDirOf_eq_hostDirOf]
                      simpa using hres
                  · refine ⟨none, ?_, ?_⟩
                    · simp [hostOutputDir, ho, hfs, hp, truthyOpt, htr, hsel, hfs2]
                    · simp [ctxOutputDir, ctxSpecIsFS_eq_hostSpecIsFS, hfs, hp,
                        htr, List.headD_eq_head?, hselC, hdeft, hfs2]
                | null => simp [truthy] at hdef
                | bool b =>
                  simp at hdv
                | int n =>
                  simp at hdv
                | str sv =>
                  simp at hdv
                | arr l =>
                  simp at hdv
            | null => simp at hwp
            | bool b => simp at hwp
            | int n => simp at hwp
            | str sv => simp at hwp
            | arr l => simp at hwp
          · refine ⟨none, ?_, ?_⟩
            · simp [hostOutputDir, ho, hfs, hp, truthyOpt, htr]
            · simp [ctxOutputDir, ctxSpecIsFS_eq_hostSpecIsFS, hfs, hp, htr]
    | null => simp [wfOutputVal] at hwf
    | bool b => simp [wfOutputVal] at hwf
    | int n => simp [wfOutputVal] at hwf
    | str sv => simp [wfOutputVal] at hwf
    | arr l => simp [wfOutputVal] at hwf

theorem c1_output_resolution_symmetry_witness :
    ∃ res : Option String,
      hostOutputDir
        [("input", .obj []),
         ("output", .obj [("profile", .obj
           [("a", .obj [("spec", .str "filesystem"), ("dir", .str "outdir")])])])]
        none = .ok res ∧
      ctxOutputDir
        (Ctx.mk [] 0 0 []
          (.obj [("profile", .obj
            [("a", .obj [("spec", .str "filesystem"), ("dir", .str "outdir")])])])).output
        = .ok res :=
  c1_output_resolution_symmetry
    [("input", .obj []),
     ("output", .obj [("profile", .obj
       [("a", .obj [("spec", .str "filesystem"), ("dir", .str "outdir")])])])]
    (Ctx.mk [] 0 0 []
      (.obj [("profile", .obj
        [("a", .obj [("spec", .str "filesystem"), ("dir", .str "outdir")])])]))
    (by rfl) (by rfl)

end MRP
